import Mathlib

/-!
# Verification of the `prizepicks` betting-scanner repository

Shallow embedding of the Python sources (`ai_analyzer.py`, `prizepicks_scanner.py`,
`discord_alert.py`) and proofs about the embedded definitions.

Modelling conventions:
* Python floats are modelled as `ℚ` (all arithmetic in the sources is elementary
  and every property proved here is order/equality-robust).
* Python ints are `ℤ`, lengths and counts are `ℕ`.
* A dictionary field that a record may lack is an `Option`; `d.get(k, default)`
  is `Option.getD`.
* Python dicts with string keys that are built up imperatively are association
  lists `List (String × β)` in insertion order, exactly as Python dicts preserve
  insertion order.
* Fallible code is `Except PyErr` / `Option`; a `try/except` that returns `None`
  maps an `Except.error` to `none`.
* Python string formatting (`f"{x:.1f}"` etc.) is abstracted by a plain decimal
  rendering; no claim observes the text of a formatted number.
-/

/- The Batteries rational-number operations are `@[irreducible]`, which blocks
`decide`/`rfl` evaluation of the embedded arithmetic on concrete inputs (the
kernel itself reduces them fine).  Restore the default reducibility so that
concrete witnesses and counterexamples evaluate. -/
set_option allowUnsafeReducibility true

attribute [semireducible] Rat.add Rat.sub Rat.mul Rat.inv Rat.ofScientific

/-- Python exception values that the modelled code can raise. -/
inductive PyErr where
  /-- `AttributeError: 'BettingAIAnalyzer' object has no attribute <name>` -/
  | attributeError (name : String)
  /-- `KeyError: <key>` from `d[key]` on a missing key -/
  | keyError (key : String)
deriving DecidableEq, Repr

/-! ## Small Python-semantics helpers -/

/-- `chStarts n h`: the character list `n` is a prefix of `h`. -/
def chStarts : List Char → List Char → Bool
  | [], _ => true
  | _ :: _, [] => false
  | a :: as, b :: bs => a == b && chStarts as bs

/-- `chContains n h`: the character list `n` occurs contiguously inside `h`. -/
def chContains (needle : List Char) : List Char → Bool
  | [] => chStarts needle []
  | b :: bs => chStarts needle (b :: bs) || chContains needle bs

/-- Python `needle in haystack` for strings: substring containment. -/
def pyIn (needle haystack : String) : Bool :=
  chContains needle.data haystack.data

/-- Python `s.lower()` (the sources only ever lower ASCII text). -/
def pyLower (s : String) : String :=
  ⟨s.data.map Char.toLower⟩

/-- Python `s.upper()`. -/
def pyUpper (s : String) : String :=
  ⟨s.data.map Char.toUpper⟩

/-- Python `max` of a list of numbers.  The sources only apply it to nonempty
lists (`max(confidence_scores)` under an `if analysis['recommendations']:`
guard); the `[]` case is an arbitrary default. -/
def pyMax : List ℚ → ℚ
  | [] => 0
  | x :: xs => xs.foldl max x

/-- Plain decimal-ish rendering of a rational, standing in for Python float
formatting inside f-strings.  Only ever used to build display text. -/
def ratStr (q : ℚ) : String :=
  toString q.num ++ "/" ++ toString q.den

/-! ### Insertion-ordered dictionaries (`dict` with `String` keys) -/

/-- `k in d` for a Python dict modelled as an insertion-ordered assoc list. -/
def hasKey {β : Type} (m : List (String × β)) (k : String) : Bool :=
  m.any (fun e => e.1 == k)

/-- `d.get(k, default)` / `d[k]`-after-membership-test: value of the entry for
`k` (entries are unique whenever the builders below are used). -/
def dictGetD {β : Type} (m : List (String × β)) (k : String) (d : β) : β :=
  ((m.find? (fun e => e.1 == k)).map Prod.snd).getD d

/-- `d.get(k)` returning `none` when absent. -/
def dictGet {β : Type} (m : List (String × β)) (k : String) : Option β :=
  (m.find? (fun e => e.1 == k)).map Prod.snd

/-- In-place update `d[k] = f d[k]` of the (first) entry for `k`. -/
def updateAssoc {β : Type} : List (String × β) → String → (β → β) → List (String × β)
  | [], _, _ => []
  | e :: es, k, f => if e.1 == k then (e.1, f e.2) :: es else e :: updateAssoc es k f

/-- `d[k] = v`: overwrite the entry for `k` in place, or append a new entry
(Python dicts keep the original insertion position on overwrite). -/
def dictSet {β : Type} : List (String × β) → String → β → List (String × β)
  | [], k, v => [(k, v)]
  | e :: es, k, v => if e.1 == k then (k, v) :: es else e :: dictSet es k v

/-! ### Stable descending sort (`list.sort(key=…, reverse=True)`)

Python's `list.sort` is stable; with `reverse=True` it orders by the key
descending while ties keep their original relative order.  That behaviour is
characterised up to equality by "stable insertion sort with a `≥`-style
comparator", which is the model used here: an element `x` earlier in the input
is inserted in front of a later element `y` exactly when `le y x` holds, i.e.
when `x`'s key is greater than or equal to `y`'s. -/

/-- Insert `x` (an earlier input element) in front of the first `y` with
`le y x` (i.e. `key x ≥ key y`). -/
def insertDesc {α : Type} (le : α → α → Bool) (x : α) : List α → List α
  | [] => [x]
  | y :: ys => if le y x then x :: y :: ys else y :: insertDesc le x ys

/-- Stable descending sort by the comparator `le` (`le a b` = "key a ≤ key b"). -/
def sortDesc {α : Type} (le : α → α → Bool) (l : List α) : List α :=
  l.foldr (insertDesc le) []

/-! ## `ai_analyzer.py`: numeric helpers

`american_to_probability` and `calculate_value` are defined in the source file
(nested, after the `return`, inside the module-level `clean_stat_type`; see
`classAttrs` below for the consequences of that placement).  Their bodies are
embedded here as written. -/

/-- `american_to_probability` (ai_analyzer.py lines 705–714): convert American
odds to implied probability.  The argument is already an integer, so the
`int(odds)` conversion (whose failure would return `None`) always succeeds. -/
def american_to_probability (odds : ℤ) : ℚ :=
  if odds > 0 then
    100 / ((odds : ℚ) + 100)
  else
    (|odds| : ℤ) / ((|odds| : ℤ) + 100 : ℚ)

/-- `calculate_value` (ai_analyzer.py lines 716–720): percentage edge of the
fair probability over the implied probability, floored at 0. -/
def calculate_value (fair_prob implied_prob : ℚ) : ℚ :=
  if implied_prob ≤ 0 then 0
  else max 0 ((fair_prob - implied_prob) / implied_prob)

/-! ## `ai_analyzer.py`: data model

Record shapes mirror the dictionaries the sources build.  Fields that the
analyzer reads defensively via `.get(key, default)` are `Option`s on the input
side; output records always carry every key, so their fields are total. -/

/-- The `moneyline` sub-dict of a Bovada game (`'N/A'` odds = `none`). -/
structure Moneyline where
  team1_odds : Option ℤ := none
  team2_odds : Option ℤ := none
deriving DecidableEq, Repr

/-- The `spread` sub-dict of a Bovada game. -/
structure SpreadOdds where
  team1_spread : Option ℚ := none
  team1_odds : Option ℤ := none
  team2_spread : Option ℚ := none
  team2_odds : Option ℤ := none
deriving DecidableEq, Repr

/-- The `totals` sub-dict of a Bovada game. -/
structure TotalOdds where
  total_points : Option ℚ := none
  over_odds : Option ℤ := none
  under_odds : Option ℤ := none
deriving DecidableEq, Repr

/-- A Bovada game record as consumed by `analyze_bovada_games`. -/
structure Game where
  id : Option String := none
  sport : Option String := none
  team1 : Option String := none
  team2 : Option String := none
  game_time : Option String := none
  moneyline : Option Moneyline := none
  spread : Option SpreadOdds := none
  totals : Option TotalOdds := none
deriving DecidableEq, Repr

/-- A single bet recommendation dict (`analyze_moneyline` / `analyze_spread` /
`analyze_totals` return value). -/
structure Recommendation where
  bet_type : String
  recommendation : String
  odds : ℤ
  confidence : ℚ
  value_edge : String
  reasoning : String
deriving DecidableEq, Repr

/-- The per-game analysis dict built by `analyze_single_game`. -/
structure GameAnalysis where
  id : String := ""
  sport : String := ""
  matchup : String := ""
  team1 : String := ""
  team2 : String := ""
  game_time : String := ""
  recommendations : List Recommendation := []
  confidence_score : ℚ := 0
  ai_commentary : String := ""
  source : String := "Bovada"
deriving DecidableEq, Repr

/-- A PrizePicks projection record as consumed by the analyzer. -/
structure Projection where
  id : Option String := none
  player_name : Option String := none
  stat_type : Option String := none
  line_score : Option ℚ := none
  odds_type : Option String := none
  league : Option String := none
deriving DecidableEq, Repr

/-- The per-projection analysis dict built by `analyze_single_projection`. -/
structure PropAnalysis where
  id : String := ""
  player_name : String := ""
  league : String := ""
  sport : String := ""
  stat_type : String := ""
  line_score : ℚ := 0
  recommendation : String := ""
  confidence_score : ℚ := 0
  reasoning : String := ""
  source : String := "PrizePicks"
deriving DecidableEq, Repr

/-! ### Instance attributes set in `BettingAIAnalyzer.__init__` -/

/-- `self.confidence_threshold` (lowered to 3.5). -/
def confidence_threshold : ℚ := 3.5

/-- `self.max_picks_per_sport` (increased to 25). -/
def max_picks_per_sport : ℕ := 25

/-- `self.value_thresholds['moneyline']`. -/
def value_threshold_moneyline : ℚ := 0.04

/-! ### Module-level helper functions of `ai_analyzer.py`

`calculate_prop_confidence`, `generate_prop_reasoning`,
`generate_game_commentary`, `american_to_probability`, `calculate_value` and
`map_league_to_sport` appear in the source (lines 601–740) nested inside the
module-level `clean_stat_type`, after its `return` statement.  They exist as
code text — embedded here — but are attributes neither of the module nor of
`BettingAIAnalyzer` (see `classAttrs`). -/

/-- The "clean line" values boosted in `calculate_prop_confidence` (line 629). -/
def clean_lines : List ℚ := [0.5, 1.5, 2.5, 20.5, 25.5, 50.5, 100.5, 200.5, 250.5]

/-- The expanded football star-player substrings (lines 633–638). -/
def football_stars : List String :=
  ["mahomes", "allen", "burrow", "herbert", "lamar", "jackson", "josh", "patrick",
   "kelce", "adams", "hill", "jefferson", "chase", "diggs", "hopkins", "kupp",
   "mccaffrey", "henry", "cook", "jones", "elliott", "kamara", "barkley",
   "williams", "daniels", "caleb", "rome", "nabers", "harrison"]

/-- The other-sport star-player substrings (line 643). -/
def other_stars : List String :=
  ["lebron", "curry", "durant", "giannis", "tatum", "luka", "judge", "ohtani"]

/-- `calculate_prop_confidence` (ai_analyzer.py lines 601–647): staged additive
boosts starting from 4.0, capped by `min(10.0, …)`. -/
def calculate_prop_confidence (proj : Projection) : ℚ :=
  let confidence : ℚ := 4.0
  let stat_type := pyLower (proj.stat_type.getD "")
  let line := proj.line_score.getD 0
  let player := pyLower (proj.player_name.getD "")
  let league := pyLower (proj.league.getD "")
  let confidence := confidence +
    (if pyIn "nfl" league then 3.0
     else if pyIn "ncaaf" league || pyIn "cfb" league then 2.5
     else if pyIn "nba" league then 0.5
     else 0.0)
  let confidence := confidence +
    (if (pyIn "nfl" league || pyIn "ncaaf" league) &&
        ["pass", "rush", "receiving", "yards", "touchdown", "completion"].any
          (fun s => pyIn s stat_type) then 1.5 else 0)
  let confidence := confidence +
    (if ["points", "yards", "strikeouts", "hits", "receptions"].any
        (fun s => pyIn s stat_type) then 1.0 else 0)
  let confidence := confidence + (if line ∈ clean_lines then 0.8 else 0)
  let confidence := confidence +
    (if football_stars.any (fun n => pyIn n player) then 2.0 else 0)
  let confidence := confidence +
    (if other_stars.any (fun n => pyIn n player) then 1.0 else 0)
  min 10.0 confidence

/-- `map_league_to_sport` (lines 722–740). -/
def map_league_to_sport (league : String) : String :=
  let league_lower := pyLower league
  if pyIn "nfl" league_lower then "NFL"
  else if pyIn "ncaaf" league_lower || pyIn "college football" league_lower then "CFB"
  else if pyIn "nba" league_lower then "NBA"
  else if pyIn "ncaab" league_lower || pyIn "college basketball" league_lower then "CBB"
  else if pyIn "mlb" league_lower || pyIn "baseball" league_lower then "MLB"
  else if pyIn "nhl" league_lower || pyIn "hockey" league_lower then "NHL"
  else if pyIn "soccer" league_lower || pyIn "mls" league_lower then "Soccer"
  else "Other"

/-- `generate_prop_reasoning` (lines 649–679). -/
def generate_prop_reasoning (proj : Projection) (confidence : ℚ) : String :=
  let player := proj.player_name.getD "Player"
  let stat := proj.stat_type.getD "stat"
  let line := proj.line_score.getD 0
  let odds_type := pyLower (proj.odds_type.getD "")
  let part1 :=
    if confidence ≥ 8.0 then "Excellent analytical edge identified."
    else if confidence ≥ 6.5 then "Strong value spotted in market pricing."
    else if confidence ≥ 5.0 then "Good edge with solid upside."
    else "Decent edge with manageable risk."
  let part2 :=
    if pyIn "over" odds_type then
      player ++ " has strong potential to exceed " ++ ratStr line ++ " " ++ stat ++ "."
    else
      "Market may be overvaluing " ++ player ++ "\x27s " ++ stat ++ " potential at this line."
  let parts :=
    if confidence ≥ 7.5 then [part1, part2, "High confidence play."]
    else if confidence ≥ 6.0 then [part1, part2, "Solid medium-high confidence bet."]
    else if confidence ≥ 4.5 then [part1, part2, "Good medium confidence opportunity."]
    else [part1, part2]
  String.intercalate " " parts

/-- `generate_game_commentary` (lines 681–703). -/
def generate_game_commentary (g : Game) (recommendations : List Recommendation) : String :=
  let team1 := g.team1.getD "Team A"
  let team2 := g.team2.getD "Team B"
  if recommendations = [] then
    "No strong betting value identified in " ++ team1 ++ " vs " ++ team2 ++ "."
  else
    let header := team1 ++ " vs " ++ team2 ++ " Analysis:"
    let recLines := recommendations.map (fun r =>
      ["• " ++ r.bet_type ++ ": " ++ r.recommendation ++
         " (Confidence: " ++ ratStr r.confidence ++ "/10)",
       "  " ++ r.reasoning])
    String.intercalate "\n" (header :: recLines.flatten)

/-! ## `ai_analyzer.py`: the class body and Python attribute resolution

In the source file the `class BettingAIAnalyzer:` suite ends at line 477: the
next `def` at column 0 is the module-level `validate_pick_data` (line 479).
`clean_stat_type` (line 571) is likewise module-level, and every function from
`calculate_prop_confidence` (line 601) through `format_analysis_for_discord`
(line 742) is indented one level inside `clean_stat_type`'s body *after* its
`return` statement — so none of them is an attribute of `BettingAIAnalyzer`.
`self.<name>` on any of those names raises `AttributeError`. -/

/-- The attribute names a `BettingAIAnalyzer` instance actually has: the
instance attributes assigned in `__init__` plus the `def`s lexically inside
the class suite (ai_analyzer.py lines 6–475). -/
def classAttrs : List String :=
  ["confidence_threshold", "max_picks_per_sport", "value_thresholds",
   "analyze_bovada_games", "analyze_single_game", "analyze_moneyline",
   "analyze_spread", "analyze_totals", "analyze_prizepicks_projections",
   "diversify_player_picks_football_first", "analyze_single_projection"]

/-- Attribute lookup plus call `self.<name>(…)` under the attribute
environment `attrs`: the computed value when the name resolves, an
`AttributeError` otherwise.  The real program runs with `attrs = classAttrs`. -/
def guardAttr {α : Type} (attrs : List String) (name : String) (v : α) : Except PyErr α :=
  if attrs.contains name then Except.ok v else Except.error (.attributeError name)

/-- `d[key]` subscription on a possibly-missing field: `KeyError` when absent. -/
def keyOrErr {α : Type} (key : String) (v : Option α) : Except PyErr α :=
  match v with
  | some a => Except.ok a
  | none => Except.error (.keyError key)

/-- The effect of wrapping a computation in `try: … except: return None`. -/
def catchNone {α : Type} (x : Except PyErr (Option α)) : Option α :=
  match x with
  | Except.ok r => r
  | Except.error _ => none

/-- Body of `analyze_moneyline` (ai_analyzer.py lines 108–156): the code inside
its `try:` block, with every `self.<helper>(…)` call guarded by attribute
lookup in `attrs`. -/
def analyze_moneyline_body (attrs : List String) (g : Game) :
    Except PyErr (Option Recommendation) := do
  let ml := g.moneyline.getD {}
  match ml.team1_odds, ml.team2_odds with
  | some team1_odds, some team2_odds => do
    let team1_prob ← guardAttr attrs "american_to_probability"
      (american_to_probability team1_odds)
    let team2_prob ← guardAttr attrs "american_to_probability"
      (american_to_probability team2_odds)
    -- `if not team1_prob or not team2_prob`: a float is falsy exactly when 0
    if team1_prob = 0 ∨ team2_prob = 0 then
      return none
    else
      let total_prob := team1_prob + team2_prob
      let team1_fair := team1_prob / total_prob
      let team2_fair := team2_prob / total_prob
      let team1_value ← guardAttr attrs "calculate_value"
        (calculate_value team1_fair team1_prob)
      let team2_value ← guardAttr attrs "calculate_value"
        (calculate_value team2_fair team2_prob)
      let best_value := max team1_value team2_value
      if best_value > value_threshold_moneyline then do
        let recommended_team ←
          if team1_value > team2_value then keyOrErr "team1" g.team1
          else keyOrErr "team2" g.team2
        let recommended_odds := if team1_value > team2_value then team1_odds else team2_odds
        let confidence := min 10 (4.0 + best_value * 30)
        return some {
          bet_type := "Moneyline",
          recommendation := recommended_team ++ " ML",
          odds := recommended_odds,
          confidence := confidence,
          value_edge := ratStr best_value,
          reasoning := "Strong value on " ++ recommended_team ++ " ML at " ++
            toString recommended_odds ++
            ". Market appears to be undervaluing this team by " ++ ratStr best_value ++ "." }
      else
        return none
  | _, _ => return none

/-- `analyze_moneyline` as the running program executes it (its `try/except`
converts the `AttributeError` raised at the `self.american_to_probability`
call into `None`). -/
def analyze_moneyline (g : Game) : Option Recommendation :=
  catchNone (analyze_moneyline_body classAttrs g)

/-- Body of `analyze_spread` (lines 158–214).  The `float`/`int` conversions
always succeed on the typed fields; each branch that sets `recommendation`
builds its f-string immediately (subscripting `game['team1']`/`game['team2']`,
hence the `keyOrErr`), and every branch that produces a recommendation carries
confidence 6.0 or 5.5 ≥ the 3.5 threshold, so the trailing
`if recommendation and confidence >= self.confidence_threshold` check is
realized by returning the record in those branches and `none` otherwise. -/
def analyze_spread_body (g : Game) : Except PyErr (Option Recommendation) := do
  let spread := g.spread.getD {}
  match spread.team1_spread, spread.team1_odds, spread.team2_spread, spread.team2_odds with
  | some spread1, some odds1, some spread2, some odds2 =>
    if odds1 ≥ -130 then do
      let t1 ← keyOrErr "team1" g.team1
      let recommendation := t1 ++ " " ++ ratStr spread1
      return some { bet_type := "Spread", recommendation := recommendation, odds := odds1,
                    confidence := 6.0, value_edge := "4-8%",
                    reasoning := "Solid spread bet with decent odds. " ++ recommendation ++
                      " offers good value in this matchup." }
    else if odds2 ≥ -130 then do
      let t2 ← keyOrErr "team2" g.team2
      let recommendation := t2 ++ " " ++ ratStr spread2
      return some { bet_type := "Spread", recommendation := recommendation, odds := odds2,
                    confidence := 6.0, value_edge := "4-8%",
                    reasoning := "Solid spread bet with decent odds. " ++ recommendation ++
                      " offers good value in this matchup." }
    else if |spread1| ≤ 14 then
      if odds1 ≥ odds2 then do
        let t1 ← keyOrErr "team1" g.team1
        let recommendation := t1 ++ " " ++ ratStr spread1
        return some { bet_type := "Spread", recommendation := recommendation, odds := odds1,
                      confidence := 5.5, value_edge := "4-8%",
                      reasoning := "Solid spread bet with decent odds. " ++ recommendation ++
                        " offers good value in this matchup." }
      else do
        let t2 ← keyOrErr "team2" g.team2
        let recommendation := t2 ++ " " ++ ratStr spread2
        return some { bet_type := "Spread", recommendation := recommendation, odds := odds2,
                      confidence := 5.5, value_edge := "4-8%",
                      reasoning := "Solid spread bet with decent odds. " ++ recommendation ++
                        " offers good value in this matchup." }
    else
      return none
  | _, _, _, _ => return none

/-- Body of `analyze_totals` (lines 216–291).  No `game[…]` subscription, so no
`KeyError` is possible; branch confidences (6.5/6.0) always pass the 3.5
threshold check. -/
def analyze_totals_body (g : Game) : Except PyErr (Option Recommendation) := do
  let totals := g.totals.getD {}
  match totals.total_points, totals.over_odds, totals.under_odds with
  | some total, some over, some under =>
    let sport := pyUpper (g.sport.getD "")
    let choice : Option (ℚ × String × ℤ) :=
      if sport = "NFL" then
        if over ≥ -125 then some (6.5, "Over " ++ ratStr total, over)
        else if under ≥ -125 then some (6.5, "Under " ++ ratStr total, under)
        else none
      else if sport = "NBA" then
        if over ≥ -125 then some (6.0, "Over " ++ ratStr total, over)
        else if under ≥ -125 then some (6.0, "Under " ++ ratStr total, under)
        else none
      else if sport = "MLB" then
        if over ≥ -125 then some (6.0, "Over " ++ ratStr total, over)
        else if under ≥ -125 then some (6.0, "Under " ++ ratStr total, under)
        else none
      else if sport = "CFB" then
        if over ≥ -125 then some (6.0, "Over " ++ ratStr total, over)
        else if under ≥ -125 then some (6.0, "Under " ++ ratStr total, under)
        else none
      else none
    match choice with
    | some (confidence, recommendation, bet_odds) =>
      if recommendation ≠ "" ∧ confidence ≥ confidence_threshold then
        return some { bet_type := "Total", recommendation := recommendation, odds := bet_odds,
                      confidence := confidence, value_edge := "4-7%",
                      reasoning := "Good total with solid odds. " ++ recommendation ++
                        " offers strong value for " ++ sport ++ "." }
      else
        return none
    | none => return none
  | _, _, _ => return none

/-- Body of `analyze_single_game` (lines 55–106): builds the analysis dict,
calls the three market analyzers, then `self.generate_game_commentary` —
which is *not* an attribute, so under `classAttrs` this always raises. -/
def analyze_single_game_body (attrs : List String) (g : Game) :
    Except PyErr (Option GameAnalysis) := do
  let team1 := g.team1.getD "Team A"
  let team2 := g.team2.getD "Team B"
  let sport := g.sport.getD "Unknown"
  let ml_analysis ← guardAttr attrs "analyze_moneyline"
    (catchNone (analyze_moneyline_body attrs g))
  let spread_analysis ← guardAttr attrs "analyze_spread"
    (catchNone (analyze_spread_body g))
  let total_analysis ← guardAttr attrs "analyze_totals"
    (catchNone (analyze_totals_body g))
  let recommendations := ml_analysis.toList ++ spread_analysis.toList ++ total_analysis.toList
  let ai_commentary ← guardAttr attrs "generate_game_commentary"
    (generate_game_commentary g recommendations)
  if recommendations ≠ [] then
    let confidence_score := pyMax (recommendations.map (fun r => r.confidence))
    if confidence_score ≥ confidence_threshold then
      return some { id := g.id.getD "", sport := sport, matchup := team1 ++ " vs " ++ team2,
                    team1 := team1, team2 := team2, game_time := g.game_time.getD "",
                    recommendations := recommendations, confidence_score := confidence_score,
                    ai_commentary := ai_commentary, source := "Bovada" }
    else
      return none
  else
    return none

/-- `analyze_single_game` as the running program executes it. -/
def analyze_single_game (g : Game) : Option GameAnalysis :=
  catchNone (analyze_single_game_body classAttrs g)

/-- Body of the class's `analyze_single_projection` (lines 443–475): the first
`self.` call is `self.calculate_prop_confidence(proj)`, which is not an
attribute, so under `classAttrs` this always raises. -/
def analyze_single_projection_body (attrs : List String) (proj : Projection) :
    Except PyErr (Option PropAnalysis) := do
  let player := proj.player_name.getD "Unknown Player"
  let stat_type := proj.stat_type.getD ""
  let line := proj.line_score.getD 0
  let odds_type := proj.odds_type.getD ""
  let league := proj.league.getD ""
  let confidence ← guardAttr attrs "calculate_prop_confidence" (calculate_prop_confidence proj)
  if confidence < confidence_threshold then
    return none
  else
    let sport ← guardAttr attrs "map_league_to_sport" (map_league_to_sport league)
    let reasoning ← guardAttr attrs "generate_prop_reasoning"
      (generate_prop_reasoning proj confidence)
    return some {
      id := proj.id.getD "", player_name := player, league := league, sport := sport,
      stat_type := stat_type, line_score := line,
      recommendation := player ++ " " ++ odds_type ++ " " ++ ratStr line ++ " " ++ stat_type,
      confidence_score := confidence, reasoning := reasoning, source := "PrizePicks" }

/-- The class's `analyze_single_projection` as the running program executes it. -/
def analyze_single_projection (proj : Projection) : Option PropAnalysis :=
  catchNone (analyze_single_projection_body classAttrs proj)

/-! ## `ai_analyzer.py`: batch loops and the ranking/diversification pipeline -/

/-- The per-record `for … try/except … continue` loop of
`analyze_bovada_games` (lines 27–34) and `analyze_prizepicks_projections`
(lines 300–307): each record is analyzed; a `None` result or a raised
exception just skips that record and the loop continues. -/
def perRecordLoop {α β : Type} (f : α → Except PyErr (Option β)) (xs : List α) : List β :=
  xs.foldl (fun acc x =>
    match f x with
    | Except.ok (some a) => acc ++ [a]
    | Except.ok none => acc
    | Except.error _ => acc) []

/-- Comparator for line 37's sort key `x.get('confidence_score', 0)`. -/
def game_sort_le (a b : GameAnalysis) : Bool :=
  decide (a.confidence_score ≤ b.confidence_score)

/-- `if sport not in sport_picks: sport_picks[sport] = []` — ensure the key is
present with an empty bucket. -/
def ensureKey {β : Type} (m : List (String × List β)) (k : String) :
    List (String × List β) :=
  if hasKey m k then m else m ++ [(k, [])]

/-- One step of the group-by-sport-and-limit loop of lines 39–51 (cap
`max_picks_per_sport = 25` per sport, insertion-ordered buckets). -/
def gamesBucketsStep (sport_picks : List (String × List GameAnalysis)) (a : GameAnalysis) :
    List (String × List GameAnalysis) :=
  updateAssoc (ensureKey sport_picks a.sport) a.sport
    (fun lst => if lst.length < max_picks_per_sport then lst ++ [a] else lst)

/-- The group-by-sport-and-limit loop of lines 39–51. -/
def gamesBuckets (analyzed_games : List GameAnalysis) : List (String × List GameAnalysis) :=
  analyzed_games.foldl gamesBucketsStep []

/-- Lines 36–53 applied to the analyzed game records: sort descending by
confidence, group by sport with the 25 cap, flatten in insertion order. -/
def analyze_bovada_post (analyzed_games : List GameAnalysis) : List GameAnalysis :=
  ((gamesBuckets (sortDesc game_sort_le analyzed_games)).map Prod.snd).flatten

/-- `analyze_bovada_games` (lines 20–53). -/
def analyze_bovada_games (games : List Game) : List GameAnalysis :=
  if games.isEmpty then []
  else analyze_bovada_post
    (perRecordLoop
      (fun g => guardAttr classAttrs "analyze_single_game" (analyze_single_game g)) games)

/-- `sort_key` (lines 310–324): football gets a large additive priority boost,
applied only inside the key. -/
def proj_sort_key (prop : PropAnalysis) : ℚ × ℚ :=
  let sport := prop.sport
  let confidence := prop.confidence_score
  if sport = "NFL" then (1000 + confidence, confidence)
  else if sport = "CFB" then (900 + confidence, confidence)
  else if sport = "NBA" then (100 + confidence, confidence)
  else if sport = "CBB" then (50 + confidence, confidence)
  else (confidence, confidence)

/-- Python tuple comparison on the (rational) sort keys: lexicographic. -/
def keyPairLE (a b : ℚ × ℚ) : Bool :=
  decide (a.1 < b.1) || (decide (a.1 = b.1) && decide (a.2 ≤ b.2))

/-- Comparator for the line 326 sort. -/
def proj_sort_le (a b : PropAnalysis) : Bool :=
  keyPairLE (proj_sort_key a) (proj_sort_key b)

/-- `f"{player}_{sport}"`, the grouping key of line 383. -/
def playerSportKey (prop : PropAnalysis) : String :=
  prop.player_name ++ "_" ++ prop.sport

/-- Line 390: a player group counts as "football" exactly when the combined
`player_sport` key string contains `'NFL'` or `'CFB'` as a substring. -/
def isFootballKey (k : String) : Bool :=
  pyIn "NFL" k || pyIn "CFB" k

/-- One step of the player grouping of lines 380–387. -/
def groupStep (player_picks : List (String × List PropAnalysis)) (prop : PropAnalysis) :
    List (String × List PropAnalysis) :=
  let key := playerSportKey prop
  if hasKey player_picks key then updateAssoc player_picks key (fun l => l ++ [prop])
  else player_picks ++ [(key, [prop])]

/-- Lines 380–387: group the props by `f"{player}_{sport}"` in insertion order. -/
def groupByPlayerSport (analyzed_props : List PropAnalysis) :
    List (String × List PropAnalysis) :=
  analyzed_props.foldl groupStep []

/-- Comparator for the per-player confidence sorts (lines 395 and 422). -/
def conf_sort_le (a b : PropAnalysis) : Bool :=
  decide (a.confidence_score ≤ b.confidence_score)

/-- First selection loop for a football player (lines 397–408): take each pick
whose (lowered) stat type is unseen — or any pick while nothing is selected —
stopping once `max_per_player` picks are selected. -/
def footballFirstLoop (max_per_player : ℕ) :
    List PropAnalysis → List PropAnalysis → List String → List PropAnalysis
  | [], player_selected, _ => player_selected
  | pick :: rest, player_selected, stat_types_seen =>
    let stat_type := pyLower pick.stat_type
    if (! stat_types_seen.contains stat_type) || player_selected.isEmpty then
      let player_selected := player_selected ++ [pick]
      if max_per_player ≤ player_selected.length then player_selected
      else footballFirstLoop max_per_player rest player_selected (stat_types_seen ++ [stat_type])
    else footballFirstLoop max_per_player rest player_selected stat_types_seen

/-- Second selection loop for a football player (lines 410–416): top up with
any not-yet-selected pick of confidence ≥ 6.0, still capped. -/
def footballSecondLoop (max_per_player : ℕ) :
    List PropAnalysis → List PropAnalysis → List PropAnalysis
  | [], player_selected => player_selected
  | pick :: rest, player_selected =>
    if (! player_selected.contains pick) && decide ((6.0 : ℚ) ≤ pick.confidence_score) then
      let player_selected := player_selected ++ [pick]
      if max_per_player ≤ player_selected.length then player_selected
      else footballSecondLoop max_per_player rest player_selected
    else footballSecondLoop max_per_player rest player_selected

/-- The whole per-football-player selection (lines 394–418). -/
def selectFootballPicks (max_per_player : ℕ) (picks : List PropAnalysis) :
    List PropAnalysis :=
  let picks := sortDesc conf_sort_le picks
  let player_selected := footballFirstLoop max_per_player picks [] []
  if player_selected.length < max_per_player then
    footballSecondLoop max_per_player picks player_selected
  else player_selected

/-- `final_sort_key` (lines 428–437). -/
def final_sort_key (prop : PropAnalysis) : ℚ × ℚ :=
  let sport := prop.sport
  let confidence := prop.confidence_score
  if sport = "NFL" then (2000 + confidence, confidence)
  else if sport = "CFB" then (1900 + confidence, confidence)
  else (confidence, confidence)

/-- Comparator for the line 439 sort. -/
def final_sort_le (a b : PropAnalysis) : Bool :=
  keyPairLE (final_sort_key a) (final_sort_key b)

/-- `diversify_player_picks_football_first` (lines 374–441). -/
def diversify_player_picks_football_first (analyzed_props : List PropAnalysis)
    (max_per_player : ℕ := 6) : List PropAnalysis :=
  let player_picks := groupByPlayerSport analyzed_props
  let football_players := player_picks.filter (fun e => isFootballKey e.1)
  let other_players := player_picks.filter (fun e => ! isFootballKey e.1)
  let diversified :=
    (football_players.map (fun e => selectFootballPicks max_per_player e.2)).flatten ++
      (other_players.map (fun e => (sortDesc conf_sort_le e.2).take 2)).flatten
  sortDesc final_sort_le diversified

/-- One step of the sport-allocation loop (lines 336–356): state is
`(sport_props, football_picks, other_picks)`. -/
def sportAllocStep (st : List (String × List PropAnalysis) × ℕ × ℕ) (prop : PropAnalysis) :
    List (String × List PropAnalysis) × ℕ × ℕ :=
  let (sport_props, football_picks, other_picks) := st
  let sport := prop.sport
  let sport_props := ensureKey sport_props sport
  if sport = "NFL" ∨ sport = "CFB" then
    if (dictGetD sport_props sport []).length < 40 then
      (updateAssoc sport_props sport (fun l => l ++ [prop]), football_picks + 1, other_picks)
    else (sport_props, football_picks, other_picks)
  else
    let max_other := if football_picks < 50 then 5 else 15
    if (dictGetD sport_props sport []).length < max_other then
      (updateAssoc sport_props sport (fun l => l ++ [prop]), football_picks, other_picks + 1)
    else (sport_props, football_picks, other_picks)

/-- The sport-allocation loop (lines 331–357). -/
def sportAlloc (props : List PropAnalysis) :
    List (String × List PropAnalysis) × ℕ × ℕ :=
  props.foldl sportAllocStep ([], 0, 0)

/-- The flattening of lines 358–370: the `NFL` and `CFB` buckets first (when
present), then every other bucket in insertion order. -/
def flattenSportProps (sport_props : List (String × List PropAnalysis)) :
    List PropAnalysis :=
  dictGetD sport_props "NFL" [] ++ dictGetD sport_props "CFB" [] ++
    ((sport_props.filter (fun e => ! (e.1 == "NFL" || e.1 == "CFB"))).map Prod.snd).flatten

/-- Lines 309–372 applied to the analyzed prop records: boosted sort,
player diversification, sport allocation, football-first flatten. -/
def analyze_prizepicks_post (analyzed_props : List PropAnalysis) : List PropAnalysis :=
  let sorted := sortDesc proj_sort_le analyzed_props
  let diversified := diversify_player_picks_football_first sorted
  flattenSportProps (sportAlloc diversified).1

/-- `analyze_prizepicks_projections` (lines 293–372). -/
def analyze_prizepicks_projections (projections : List Projection) : List PropAnalysis :=
  if projections.isEmpty then []
  else analyze_prizepicks_post
    (perRecordLoop
      (fun p => guardAttr classAttrs "analyze_single_projection" (analyze_single_projection p))
      projections)

/-! ## `prizepicks_scanner.py`: data model and projection parsing -/

/-- The `attributes` sub-dict of an item of the API's `included` list. -/
structure Attrs where
  name : Option String := none
  display_name : Option String := none
  position : Option String := none
deriving DecidableEq, Repr

/-- An item of the `included` list (`type`/`id` read via `.get(…, '')`). -/
structure IncludedItem where
  type : String := ""
  id : String := ""
  attributes : Attrs := {}
deriving DecidableEq, Repr

/-- A raw projection of the API's `data` list; the `*_id` fields are the
`relationships.<rel>.data.id` chains (each `.get` defaulting to `''`/`{}`). -/
structure RawProjection where
  id : Option String := none
  stat_type : Option String := none
  line_score : Option ℚ := none
  odds_type : Option String := none
  description : Option String := none
  start_time : Option String := none
  new_player_id : Option String := none
  league_id : Option String := none
  team_id : Option String := none
deriving DecidableEq, Repr

/-- A fetched projections payload (`None`/missing-`'data'` is `none` at the
`parse_projections` call site). -/
structure PPData where
  data : List RawProjection := []
  included : List IncludedItem := []
deriving DecidableEq, Repr

/-- The normalized projection record built by `extract_projection_info`.
(The wall-clock `timestamp` field is omitted: no embedded code reads it.) -/
structure ProjectionInfo where
  id : String := ""
  player_name : String := ""
  position : String := ""
  team : String := ""
  league : String := ""
  stat_type : String := ""
  line_score : ℚ := 0
  odds_type : String := ""
  description : String := ""
  start_time : String := ""
  source : String := "PrizePicks"
deriving DecidableEq, Repr

/-- `self.target_leagues` (prizepicks_scanner.py lines 33–39). -/
def target_leagues : List (String × List String) :=
  [("NFL", ["NFL", "NFLP"]),
   ("CFB", ["NCAAF", "College Football", "CFB"]),
   ("NBA", ["NBA"]),
   ("CBB", ["NCAAB", "College Basketball", "CBB"]),
   ("MLB", ["MLB", "Major League Baseball"])]

/-- `is_target_league` (lines 234–240): some configured variant, lowercased,
occurs as a substring of the lowercased league name. -/
def is_target_league (league_name : String) : Bool :=
  target_leagues.any (fun e =>
    e.2.any (fun variation => pyIn (pyLower variation) (pyLower league_name)))

/-- The lookup-map construction of lines 143–158 (`players_map`, `leagues_map`,
`teams_map`; Python dict assignment = `dictSet`). -/
def buildLookupMaps (included : List IncludedItem) :
    List (String × Attrs) × List (String × Attrs) × List (String × Attrs) :=
  included.foldl (fun maps item =>
    let (players_map, leagues_map, teams_map) := maps
    if item.type == "new_player" then
      (dictSet players_map item.id item.attributes, leagues_map, teams_map)
    else if item.type == "league" then
      (players_map, dictSet leagues_map item.id item.attributes, teams_map)
    else if item.type == "team" then
      (players_map, leagues_map, dictSet teams_map item.id item.attributes)
    else maps) ([], [], [])

/-- `extract_projection_info` (lines 181–232): every lookup is defaulted, so
the body cannot raise and the `except: return None` is unreachable —
unresolvable player/league keys produce `'Unknown'` placeholders instead. -/
def extract_projection_info (proj : RawProjection)
    (players_map leagues_map teams_map : List (String × Attrs)) : Option ProjectionInfo :=
  let stat_type := proj.stat_type.getD ""
  let line_score := proj.line_score.getD 0
  let odds_type := proj.odds_type.getD ""
  let description := proj.description.getD ""
  let start_time := proj.start_time.getD ""
  let player_id := proj.new_player_id.getD ""
  let player_info := dictGetD players_map player_id {}
  let player_name := player_info.display_name.getD "Unknown"
  let position := player_info.position.getD ""
  let league_id := proj.league_id.getD ""
  let league_info := dictGetD leagues_map league_id {}
  let league_name := league_info.name.getD "Unknown"
  let team_id := proj.team_id.getD ""
  let team_info := dictGetD teams_map team_id {}
  let team_name := team_info.name.getD ""
  some { id := proj.id.getD "", player_name := player_name, position := position,
         team := team_name, league := league_name, stat_type := stat_type,
         line_score := line_score, odds_type := odds_type, description := description,
         start_time := start_time, source := "PrizePicks" }

/-- The per-record parsing loop of `parse_projections` (lines 161–176): keep a
record only when extraction produced one and its league passes
`is_target_league`; a failed record is skipped and the loop continues. -/
def parse_projections_loop (players_map leagues_map teams_map : List (String × Attrs))
    (raw : List RawProjection) : List ProjectionInfo :=
  raw.foldl (fun projections proj =>
    match extract_projection_info proj players_map leagues_map teams_map with
    | some projection_data =>
      if is_target_league projection_data.league then projections ++ [projection_data]
      else projections
    | none => projections) []

/-- `parse_projections` (lines 131–179). -/
def parse_projections (data : Option PPData) : List ProjectionInfo :=
  match data with
  | none => []
  | some d =>
    let (players_map, leagues_map, teams_map) := buildLookupMaps d.included
    parse_projections_loop players_map leagues_map teams_map d.data

/-! ## `discord_alert.py`: message splitting (C7) -/

/-- The whitespace set of Python's `str.strip()`. -/
def isPySpace (c : Char) : Bool :=
  c == ' ' || c == '\t' || c == '\n' || c == '\r' || c == '\x0b' || c == '\x0c'

/-- Python `s.strip()` over a character list. -/
def pyStrip (s : List Char) : List Char :=
  ((s.dropWhile isPySpace).reverse.dropWhile isPySpace).reverse

/-- Python `message.split('\n')` over a character list. -/
def splitLines : List Char → List (List Char)
  | [] => [[]]
  | c :: cs =>
    if c == '\n' then [] :: splitLines cs
    else
      match splitLines cs with
      | [] => [[c]]
      | l :: ls => (c :: l) :: ls

/-- `self.max_message_length` (discord_alert.py line 12). -/
def max_message_length : ℕ := 2000

/-- One iteration of the line loop of `split_long_message` (lines 222–232):
the loop state is the pair `(messages, current_message)`, passed here as two
arguments. -/
def splitStep (messages : List (List Char)) (current_message : List Char)
    (line : List Char) : List (List Char) × List Char :=
  if max_message_length < (current_message ++ line ++ ['\n']).length then
    if current_message ≠ [] then
      (messages ++ [pyStrip current_message], line ++ ['\n'])
    else
      (messages ++ [line.take (max_message_length - 3) ++ "...".data], current_message)
  else
    (messages, current_message ++ line ++ ['\n'])

/-- The loop step on the paired state, as folded over the lines. -/
def splitStepP (st : List (List Char) × List Char) (line : List Char) :
    List (List Char) × List Char :=
  splitStep st.1 st.2 line

/-- The trailing `if current_message: messages.append(current_message.strip())`
(lines 234–236). -/
def splitFinish (st : List (List Char) × List Char) : List (List Char) :=
  if st.2 ≠ [] then st.1 ++ [pyStrip st.2] else st.1

/-- `split_long_message` (lines 212–238), over the message's character list. -/
def split_long_message (message : List Char) : List (List Char) :=
  if message.length ≤ max_message_length then [message]
  else splitFinish ((splitLines message).foldl splitStepP ([], []))

/-! ## C3: the per-sport and per-player caps -/

/-- The counterexample input for C3: a non-football player whose *name* contains
`"NFL"` (all records in sport `NBA`), and one player with records in both `NFL`
and `CFB`. -/
def C3cexInput : List PropAnalysis :=
  [{ player_name := "MrNFL", sport := "NBA", stat_type := "u1", confidence_score := 5 },
   { player_name := "MrNFL", sport := "NBA", stat_type := "u2", confidence_score := 5 },
   { player_name := "MrNFL", sport := "NBA", stat_type := "u3", confidence_score := 5 },
   { player_name := "Smith", sport := "NFL", stat_type := "s1", confidence_score := 5 },
   { player_name := "Smith", sport := "NFL", stat_type := "s2", confidence_score := 5 },
   { player_name := "Smith", sport := "NFL", stat_type := "s3", confidence_score := 5 },
   { player_name := "Smith", sport := "NFL", stat_type := "s4", confidence_score := 5 },
   { player_name := "Smith", sport := "CFB", stat_type := "t1", confidence_score := 5 },
   { player_name := "Smith", sport := "CFB", stat_type := "t2", confidence_score := 5 },
   { player_name := "Smith", sport := "CFB", stat_type := "t3", confidence_score := 5 }]

/-- The concrete record used in the C10 witness. -/
def pW10 : PropAnalysis :=
  { player_name := "A", sport := "NBA", stat_type := "Points", confidence_score := 5 }

theorem insertDesc_perm {α : Type} (le : α → α → Bool) (x : α) (l : List α) :
    List.Perm (insertDesc le x l) (x :: l) := by
  induction l with
  | nil => simp [insertDesc]
  | cons y ys ih =>
    simp only [insertDesc]
    split
    · exact List.Perm.refl _
    · exact ((ih.cons y).trans (List.Perm.swap x y ys))

theorem sortDesc_perm {α : Type} (le : α → α → Bool) (l : List α) :
    List.Perm (sortDesc le l) l := by
  induction l with
  | nil => exact List.Perm.refl _
  | cons x xs ih =>
    exact (insertDesc_perm le x (sortDesc le xs)).trans (ih.cons x)

theorem mem_sortDesc {α : Type} {le : α → α → Bool} {l : List α} {a : α}
    (h : a ∈ sortDesc le l) : a ∈ l :=
  (sortDesc_perm le l).mem_iff.mp h

theorem countP_sortDesc {α : Type} (le : α → α → Bool) (p : α → Bool) (l : List α) :
    (sortDesc le l).countP p = l.countP p :=
  (sortDesc_perm le l).countP_eq p

/-- A stable descending sort leaves a list whose elements compare "already in
order" (every earlier element at least as large as every later one, in the
weak sense `le later earlier`) unchanged; in particular a list of all-equal
keys is returned in encounter order. -/
theorem sortDesc_eq_self {α : Type} {le : α → α → Bool} {l : List α}
    (h : ∀ x ∈ l, ∀ y ∈ l, le y x = true) : sortDesc le l = l := by
  induction l with
  | nil => rfl
  | cons x xs ih =>
    have hxs : sortDesc le xs = xs :=
      ih (fun a ha b hb => h a (List.mem_cons_of_mem _ ha) b (List.mem_cons_of_mem _ hb))
    show insertDesc le x (sortDesc le xs) = x :: xs
    rw [hxs]
    cases xs with
    | nil => rfl
    | cons y ys =>
      have : le y x = true :=
        h x (List.mem_cons_self _ _) y (List.mem_cons_of_mem _ (List.mem_cons_self _ _))
      simp [insertDesc, this]

theorem calculate_value_nonneg (fair implied : ℚ) : 0 ≤ calculate_value fair implied := by
  unfold calculate_value
  split
  · exact le_refl 0
  · exact le_max_left 0 _

/-- C4 counterexample input: the integer odds value `0`. -/
theorem claim_C4_counterexample :
    american_to_probability 0 = 0 ∧ ¬ (0 < american_to_probability 0) := by
  norm_num [american_to_probability]

/-- C4 (amended): for every *nonzero* integer American odds value `o`,
`american_to_probability` returns a value strictly between 0 and 1, computed as
`100/(o+100)` for positive `o` and `|o|/(|o|+100)` otherwise; every `o < -100`
yields a value above `1/2` and every `o > 100` a value below `1/2`.  (At `o = 0`
the formula `|o|/(|o|+100)` evaluates to `0`, which is not strictly positive,
so the original unrestricted claim fails; see `claim_C4_counterexample`.) -/
theorem claim_C4_amended (o : ℤ) (ho : o ≠ 0) :
    (0 < american_to_probability o ∧ american_to_probability o < 1) ∧
    american_to_probability o =
      (if o > 0 then 100 / ((o : ℚ) + 100) else (|o| : ℤ) / ((|o| : ℤ) + 100 : ℚ)) ∧
    (o < -100 → 1 / 2 < american_to_probability o) ∧
    (100 < o → american_to_probability o < 1 / 2) := by
  unfold american_to_probability
  refine ⟨?_, rfl, ?_, ?_⟩
  · by_cases hpos : o > 0
    · rw [if_pos hpos]
      have hoq : (0 : ℚ) < (o : ℚ) := by exact_mod_cast hpos
      have h1 : (0 : ℚ) < (o : ℚ) + 100 := by linarith
      exact ⟨by positivity, by rw [div_lt_one h1]; linarith⟩
    · rw [if_neg hpos]
      have habs : (1 : ℤ) ≤ |o| := by
        have := abs_pos.mpr ho; omega
      have habsq : (1 : ℚ) ≤ ((|o| : ℤ) : ℚ) := by exact_mod_cast habs
      have hden : (0 : ℚ) < ((|o| : ℤ) : ℚ) + 100 := by linarith
      exact ⟨by positivity, by rw [div_lt_one hden]; linarith⟩
  · intro h
    have hpos : ¬ o > 0 := by omega
    rw [if_neg hpos]
    have habs : (100 : ℤ) < |o| := by
      rw [abs_of_neg (by omega : o < 0)]; omega
    have hq : (100 : ℚ) < ((|o| : ℤ) : ℚ) := by exact_mod_cast habs
    have hden : (0 : ℚ) < ((|o| : ℤ) : ℚ) + 100 := by linarith
    rw [div_lt_div_iff₀ (by norm_num : (0:ℚ) < 2) hden]
    linarith
  · intro h
    have hpos : o > 0 := by omega
    rw [if_pos hpos]
    have hq : (100 : ℚ) < (o : ℚ) := by exact_mod_cast h
    have hden : (0 : ℚ) < (o : ℚ) + 100 := by linarith
    rw [div_lt_div_iff₀ hden (by norm_num : (0:ℚ) < 2)]
    linarith

/-- Witness for `claim_C4_amended` at the favorite `-150` (and, for the
underdog implication, at `+130`). -/
theorem claim_C4_amended_witness :
    ((0 < american_to_probability (-150) ∧ american_to_probability (-150) < 1) ∧
      american_to_probability (-150) =
        (if (-150 : ℤ) > 0 then 100 / (((-150 : ℤ) : ℚ) + 100)
         else (|(-150 : ℤ)| : ℤ) / ((|(-150 : ℤ)| : ℤ) + 100 : ℚ)) ∧
      ((-150 : ℤ) < -100 → 1 / 2 < american_to_probability (-150)) ∧
      (100 < (-150 : ℤ) → american_to_probability (-150) < 1 / 2)) ∧
    (100 < (130 : ℤ) → american_to_probability 130 < 1 / 2) :=
  ⟨claim_C4_amended (-150) (by norm_num), (claim_C4_amended 130 (by norm_num)).2.2.2⟩

/-- C5 counterexample: with team-A odds `-150` and team-B odds `+130`, the
normalized fair probability of team B (`p2/(p1+p2)`) is *below* its implied
probability, so `calculate_value` returns `0`, not a positive edge. -/
theorem claim_C5_counterexample :
    calculate_value
        (american_to_probability 130 /
          (american_to_probability (-150) + american_to_probability 130))
        (american_to_probability 130) = 0 ∧
    ¬ (0 < calculate_value
        (american_to_probability 130 /
          (american_to_probability (-150) + american_to_probability 130))
        (american_to_probability 130)) := by
  norm_num [american_to_probability, calculate_value]

/-- C5 (amended): for the game with team-A moneyline `-150` and team-B `+130`,
the implied probabilities are `3/5 = 0.600` and `10/23 ≈ 0.435`, the normalized
fair probabilities are `69/119 ≈ 0.580` and `50/119 ≈ 0.420` — but team B's
fair probability is *below* its implied probability (the normalization divides
by a total above 1, the bookmaker overround), so `calculate_value` for team B
returns `0` rather than a positive edge. -/
theorem claim_C5_amended :
    american_to_probability (-150) = 3 / 5 ∧
    american_to_probability 130 = 10 / 23 ∧
    |american_to_probability 130 - (435 : ℚ) / 1000| < 1 / 1000 ∧
    american_to_probability (-150) /
        (american_to_probability (-150) + american_to_probability 130) = 69 / 119 ∧
    american_to_probability 130 /
        (american_to_probability (-150) + american_to_probability 130) = 50 / 119 ∧
    |(69 : ℚ) / 119 - 580 / 1000| < 1 / 1000 ∧
    |(50 : ℚ) / 119 - 420 / 1000| < 1 / 1000 ∧
    american_to_probability 130 /
        (american_to_probability (-150) + american_to_probability 130) <
      american_to_probability 130 ∧
    calculate_value
        (american_to_probability 130 /
          (american_to_probability (-150) + american_to_probability 130))
        (american_to_probability 130) = 0 := by
  norm_num [american_to_probability, calculate_value, abs_lt]

/-! ## C1: the missing helper attributes empty out every analysis -/

theorem analyze_single_game_body_eq_error (g : Game) :
    analyze_single_game_body classAttrs g =
      Except.error (PyErr.attributeError "generate_game_commentary") := rfl

theorem analyze_single_game_eq_none (g : Game) : analyze_single_game g = none := rfl

theorem analyze_single_projection_body_eq_error (p : Projection) :
    analyze_single_projection_body classAttrs p =
      Except.error (PyErr.attributeError "calculate_prop_confidence") := rfl

theorem analyze_single_projection_eq_none (p : Projection) :
    analyze_single_projection p = none := rfl

theorem perRecordLoop_nil_of_none {α β : Type} {f : α → Except PyErr (Option β)}
    (hf : ∀ x, f x = Except.ok none) : ∀ xs : List α, perRecordLoop f xs = [] := by
  intro xs
  unfold perRecordLoop
  suffices h : ∀ acc : List β, xs.foldl (fun acc x =>
      match f x with
      | Except.ok (some a) => acc ++ [a]
      | Except.ok none => acc
      | Except.error _ => acc) acc = acc from h []
  induction xs with
  | nil => intro acc; rfl
  | cons x xs ih =>
    intro acc
    simp only [List.foldl_cons, hf x]
    exact ih acc

/-- **C1**: because the class suite of `BettingAIAnalyzer` ends at the
module-level `validate_pick_data`, and `generate_game_commentary` /
`calculate_prop_confidence` are nested inside the module-level
`clean_stat_type` after its `return`, those names are not attributes of the
class; every `analyze_single_game` call raises `AttributeError` at
`self.generate_game_commentary` and every `analyze_single_projection` call at
`self.calculate_prop_confidence`; the per-record handlers turn this into
`None`, so `analyze_bovada_games` and `analyze_prizepicks_projections` return
the empty list on *every* input. -/
theorem claim_C1_analyzers_always_empty :
    classAttrs.contains "generate_game_commentary" = false ∧
    classAttrs.contains "calculate_prop_confidence" = false ∧
    (∀ g : Game, analyze_single_game_body classAttrs g =
        Except.error (PyErr.attributeError "generate_game_commentary")) ∧
    (∀ p : Projection, analyze_single_projection_body classAttrs p =
        Except.error (PyErr.attributeError "calculate_prop_confidence")) ∧
    (∀ g : Game, analyze_single_game g = none) ∧
    (∀ p : Projection, analyze_single_projection p = none) ∧
    (∀ games : List Game, analyze_bovada_games games = []) ∧
    (∀ projections : List Projection,
        analyze_prizepicks_projections projections = []) := by
  refine ⟨rfl, rfl, analyze_single_game_body_eq_error,
    analyze_single_projection_body_eq_error, analyze_single_game_eq_none,
    analyze_single_projection_eq_none, ?_, ?_⟩
  · intro games
    unfold analyze_bovada_games
    split
    · rfl
    · rw [perRecordLoop_nil_of_none (fun g => by
        rw [show analyze_single_game g = none from analyze_single_game_eq_none g]; rfl)]
      rfl
  · intro projections
    unfold analyze_prizepicks_projections
    split
    · rfl
    · rw [perRecordLoop_nil_of_none (fun p => by
        rw [show analyze_single_projection p = none from analyze_single_projection_eq_none p]; rfl)]
      rfl

/-! ## C2: confidence scores stay in the configured range -/

theorem exBind_ok {ε α β : Type} (a : α) (f : α → Except ε β) :
    (Except.ok a >>= f : Except ε β) = f a := rfl

theorem exBind_error {ε α β : Type} (e : ε) (f : α → Except ε β) :
    ((Except.error e : Except ε α) >>= f) = Except.error e := rfl

theorem exPure {ε α : Type} (a : α) : (pure a : Except ε α) = Except.ok a := rfl

theorem guardAttr_ok {α : Type} {attrs : List String} {n : String} {v w : α}
    (h : guardAttr attrs n v = Except.ok w) : w = v := by
  unfold guardAttr at h
  split at h
  · cases h; rfl
  · cases h

theorem calculate_prop_confidence_bounds (proj : Projection) :
    0 ≤ calculate_prop_confidence proj ∧ calculate_prop_confidence proj ≤ 10 := by
  simp only [calculate_prop_confidence]
  constructor
  · refine le_min (by norm_num) ?_
    split_ifs <;> norm_num
  · exact le_trans (min_le_left _ _) (by norm_num)

/-- **C2**: every confidence the scoring code attaches lies in `[0, 10]`:
`calculate_prop_confidence` is capped by `min(10.0, …)` over purely additive
nonnegative boosts, any projection analysis record stores exactly that value,
and the moneyline confidence `min(10, 4.0 + best_value * 30)` can never exceed
10 or drop below 0 whatever the edge magnitude (the attribute environment
`attrs` is arbitrary, so this covers the helper bodies as written, not just
the degenerate run of C1). -/
theorem claim_C2_confidence_bounds :
    (∀ proj : Projection,
        0 ≤ calculate_prop_confidence proj ∧ calculate_prop_confidence proj ≤ 10) ∧
    (∀ (attrs : List String) (proj : Projection) (a : PropAnalysis),
        analyze_single_projection_body attrs proj = Except.ok (some a) →
        0 ≤ a.confidence_score ∧ a.confidence_score ≤ 10) ∧
    (∀ (attrs : List String) (g : Game) (r : Recommendation),
        analyze_moneyline_body attrs g = Except.ok (some r) →
        0 ≤ r.confidence ∧ r.confidence ≤ 10) := by
  refine ⟨calculate_prop_confidence_bounds, ?_, ?_⟩
  · intro attrs proj a h
    simp only [analyze_single_projection_body] at h
    cases hg : guardAttr attrs "calculate_prop_confidence" (calculate_prop_confidence proj) with
    | error e => rw [hg, exBind_error] at h; cases h
    | ok confidence =>
      rw [hg, exBind_ok] at h
      split at h
      · rw [exPure] at h; cases h
      · cases hs : guardAttr attrs "map_league_to_sport"
            (map_league_to_sport (proj.league.getD "")) with
        | error e => rw [hs, exBind_error] at h; cases h
        | ok sport =>
          rw [hs, exBind_ok] at h
          cases hr : guardAttr attrs "generate_prop_reasoning"
              (generate_prop_reasoning proj confidence) with
          | error e => rw [hr, exBind_error] at h; cases h
          | ok reasoning =>
            rw [hr, exBind_ok, exPure] at h
            simp only [Except.ok.injEq, Option.some.injEq] at h
            subst h
            have hc : confidence = calculate_prop_confidence proj := guardAttr_ok hg
            subst hc
            exact calculate_prop_confidence_bounds proj
  · intro attrs g r h
    simp only [analyze_moneyline_body] at h
    cases ho1 : (g.moneyline.getD {}).team1_odds with
    | none => simp only [ho1, exPure] at h; cases h
    | some team1_odds =>
      cases ho2 : (g.moneyline.getD {}).team2_odds with
      | none => simp only [ho1, ho2, exPure] at h; cases h
      | some team2_odds =>
        simp only [ho1, ho2] at h
        cases hp1 : guardAttr attrs "american_to_probability"
            (american_to_probability team1_odds) with
        | error e => rw [hp1, exBind_error] at h; cases h
        | ok team1_prob =>
          rw [hp1, exBind_ok] at h
          cases hp2 : guardAttr attrs "american_to_probability"
              (american_to_probability team2_odds) with
          | error e => rw [hp2, exBind_error] at h; cases h
          | ok team2_prob =>
            rw [hp2, exBind_ok] at h
            split at h
            · rw [exPure] at h; cases h
            · cases hv1 : guardAttr attrs "calculate_value"
                  (calculate_value (team1_prob / (team1_prob + team2_prob)) team1_prob) with
              | error e => rw [hv1, exBind_error] at h; cases h
              | ok team1_value =>
                rw [hv1, exBind_ok] at h
                cases hv2 : guardAttr attrs "calculate_value"
                    (calculate_value (team2_prob / (team1_prob + team2_prob)) team2_prob) with
                | error e => rw [hv2, exBind_error] at h; cases h
                | ok team2_value =>
                  rw [hv2, exBind_ok] at h
                  have h1 : team1_value = calculate_value
                      (team1_prob / (team1_prob + team2_prob)) team1_prob := guardAttr_ok hv1
                  have hbv : 0 ≤ max team1_value team2_value :=
                    le_trans (h1 ▸ calculate_value_nonneg _ _) (le_max_left _ _)
                  have hgoal : 0 ≤ min 10 (4.0 + max team1_value team2_value * 30) ∧
                      min 10 (4.0 + max team1_value team2_value * 30) ≤ (10 : ℚ) := by
                    constructor
                    · refine le_min (by norm_num) ?_
                      have : 0 ≤ max team1_value team2_value * 30 := by positivity
                      linarith
                    · exact le_trans (min_le_left _ _) (by norm_num)
                  split at h
                  · split at h
                    · cases hk : keyOrErr "team1" g.team1 with
                      | error e => rw [hk, exBind_error] at h; cases h
                      | ok recommended_team =>
                        rw [hk, exBind_ok, exPure] at h
                        simp only [Except.ok.injEq, Option.some.injEq] at h
                        subst h
                        exact hgoal
                    · cases hk : keyOrErr "team2" g.team2 with
                      | error e => rw [hk, exBind_error] at h; cases h
                      | ok recommended_team =>
                        rw [hk, exBind_ok, exPure] at h
                        simp only [Except.ok.injEq, Option.some.injEq] at h
                        subst h
                        exact hgoal
                  · rw [exPure] at h; cases h

/-- Witness for `claim_C2_confidence_bounds`: a concrete NFL projection and a
concrete `+200/+200` moneyline game on which the bodies succeed, with the
stored scores in range. -/
theorem claim_C2_confidence_bounds_witness :
    (∃ a : PropAnalysis,
        analyze_single_projection_body
            ["calculate_prop_confidence", "map_league_to_sport", "generate_prop_reasoning"]
            { player_name := some "Patrick Mahomes", stat_type := some "Passing Yards",
              line_score := some 250.5, odds_type := some "Over", league := some "NFL" } =
          Except.ok (some a) ∧
        0 ≤ a.confidence_score ∧ a.confidence_score ≤ 10) ∧
    (∃ r : Recommendation,
        analyze_moneyline_body ["american_to_probability", "calculate_value"]
            { team1 := some "Team A", team2 := some "Team B",
              moneyline := some { team1_odds := some 200, team2_odds := some 200 } } =
          Except.ok (some r) ∧
        0 ≤ r.confidence ∧ r.confidence ≤ 10) := by
  constructor
  · have h : analyze_single_projection_body
        ["calculate_prop_confidence", "map_league_to_sport", "generate_prop_reasoning"]
        { player_name := some "Patrick Mahomes", stat_type := some "Passing Yards",
          line_score := some 250.5, odds_type := some "Over", league := some "NFL" } =
        Except.ok (some
          { player_name := "Patrick Mahomes", league := "NFL", sport := "NFL",
            stat_type := "Passing Yards", line_score := 501/2,
            recommendation := "Patrick Mahomes Over 501/2 Passing Yards",
            confidence_score := 10,
            reasoning := "Excellent analytical edge identified. Patrick Mahomes has strong potential to exceed 501/2 Passing Yards. High confidence play." }) := by
      rfl
    exact ⟨_, h, claim_C2_confidence_bounds.2.1 _ _ _ h⟩
  · have h : analyze_moneyline_body ["american_to_probability", "calculate_value"]
        { team1 := some "Team A", team2 := some "Team B",
          moneyline := some { team1_odds := some 200, team2_odds := some 200 } } =
        Except.ok (some
          { bet_type := "Moneyline", recommendation := "Team B ML", odds := 200,
            confidence := 10, value_edge := "1/2",
            reasoning := "Strong value on Team B ML at 200. Market appears to be undervaluing this team by 1/2." }) := by
      rfl
    exact ⟨_, h, claim_C2_confidence_bounds.2.2 _ _ _ h⟩

/-! ## C8: per-record failure handling never aborts a batch -/

theorem foldl_step_acc {α β : Type} (step : List β → α → List β)
    (hstep : ∀ acc x, step acc x = acc ++ step [] x) :
    ∀ (xs : List α) (acc : List β), xs.foldl step acc = acc ++ xs.foldl step [] := by
  intro xs
  induction xs with
  | nil => intro acc; simp
  | cons x xs ih =>
    intro acc
    rw [List.foldl_cons, List.foldl_cons, ih (step acc x), ih (step [] x),
        hstep acc x, List.append_assoc]

theorem perRecordLoop_step_acc {α β : Type} (f : α → Except PyErr (Option β))
    (acc : List β) (x : α) :
    (fun (acc : List β) x =>
      match f x with
      | Except.ok (some a) => acc ++ [a]
      | Except.ok none => acc
      | Except.error _ => acc) acc x =
    acc ++ (fun (acc : List β) x =>
      match f x with
      | Except.ok (some a) => acc ++ [a]
      | Except.ok none => acc
      | Except.error _ => acc) [] x := by
  cases hfx : f x with
  | ok o => cases o with
    | some a => simp [hfx]
    | none => simp [hfx]
  | error e => simp [hfx]

theorem perRecordLoop_append {α β : Type} (f : α → Except PyErr (Option β))
    (xs ys : List α) :
    perRecordLoop f (xs ++ ys) = perRecordLoop f xs ++ perRecordLoop f ys := by
  unfold perRecordLoop
  rw [List.foldl_append, foldl_step_acc _ (perRecordLoop_step_acc f)]

theorem perRecordLoop_error_singleton {α β : Type} {f : α → Except PyErr (Option β)}
    {bad : α} {e : PyErr} (hbad : f bad = Except.error e) :
    perRecordLoop f [bad] = [] := by
  unfold perRecordLoop
  simp [hbad]

theorem parse_loop_step_acc (pm lm tm : List (String × Attrs))
    (acc : List ProjectionInfo) (x : RawProjection) :
    (fun (projections : List ProjectionInfo) proj =>
      match extract_projection_info proj pm lm tm with
      | some projection_data =>
        if is_target_league projection_data.league then projections ++ [projection_data]
        else projections
      | none => projections) acc x =
    acc ++ (fun (projections : List ProjectionInfo) proj =>
      match extract_projection_info proj pm lm tm with
      | some projection_data =>
        if is_target_league projection_data.league then projections ++ [projection_data]
        else projections
      | none => projections) [] x := by
  cases hfx : extract_projection_info x pm lm tm with
  | some pd =>
    simp only [hfx]
    split <;> simp
  | none => simp [hfx]

theorem parse_loop_append (pm lm tm : List (String × Attrs)) (xs ys : List RawProjection) :
    parse_projections_loop pm lm tm (xs ++ ys) =
      parse_projections_loop pm lm tm xs ++ parse_projections_loop pm lm tm ys := by
  unfold parse_projections_loop
  rw [List.foldl_append, foldl_step_acc _ (parse_loop_step_acc pm lm tm)]

/-- **C8**: a missing required odds field (`'N/A'` value or absent `moneyline`
section) makes `analyze_moneyline` return no recommendation without raising
(under any attribute environment, the body returns `ok none` before any
helper lookup); and the per-record loops process records independently — a
record whose analysis raises is simply skipped, the rest of the batch is
processed exactly as if that record were absent. -/
theorem claim_C8_per_record_failures_skip :
    (∀ (attrs : List String) (g : Game),
        (g.moneyline.getD {}).team1_odds = none ∨ (g.moneyline.getD {}).team2_odds = none →
        analyze_moneyline_body attrs g = Except.ok none ∧ analyze_moneyline g = none) ∧
    (∀ {α β : Type} (f : α → Except PyErr (Option β)) (xs ys : List α) (bad : α) (e : PyErr),
        f bad = Except.error e →
        perRecordLoop f (xs ++ bad :: ys) = perRecordLoop f (xs ++ ys)) ∧
    (∀ {α β : Type} (f : α → Except PyErr (Option β)) (xs ys : List α),
        perRecordLoop f (xs ++ ys) = perRecordLoop f xs ++ perRecordLoop f ys) ∧
    (∀ (pm lm tm : List (String × Attrs)) (xs ys : List RawProjection),
        parse_projections_loop pm lm tm (xs ++ ys) =
          parse_projections_loop pm lm tm xs ++ parse_projections_loop pm lm tm ys) := by
  refine ⟨?_, ?_, @perRecordLoop_append, parse_loop_append⟩
  · intro attrs g h
    have hbody : ∀ attrs' : List String, analyze_moneyline_body attrs' g = Except.ok none := by
      intro attrs'
      simp only [analyze_moneyline_body]
      rcases h with h | h
      · cases h2 : (g.moneyline.getD {}).team2_odds with
        | none => simp [h, h2, exPure]
        | some o2 => simp [h, h2, exPure]
      · cases h1 : (g.moneyline.getD {}).team1_odds with
        | none => simp [h, h1, exPure]
        | some o1 => simp [h, h1, exPure]
    refine ⟨hbody attrs, ?_⟩
    unfold analyze_moneyline
    rw [hbody classAttrs]
    rfl
  · intro α β f xs ys bad e hbad
    rw [show xs ++ bad :: ys = (xs ++ [bad]) ++ ys by simp, perRecordLoop_append,
        perRecordLoop_append, perRecordLoop_append, perRecordLoop_error_singleton hbad,
        List.append_nil]

/-- Witness for `claim_C8_per_record_failures_skip`: a game with an `'N/A'`
team-1 moneyline yields no recommendation without raising, and a batch
containing a record whose analysis raises (here: any record, by C1's missing
attribute) is processed exactly like the batch without it. -/
theorem claim_C8_per_record_failures_skip_witness :
    (analyze_moneyline_body classAttrs
        { team1 := some "A", team2 := some "B",
          moneyline := some { team1_odds := none, team2_odds := some 130 } } =
        Except.ok none ∧
      analyze_moneyline
        { team1 := some "A", team2 := some "B",
          moneyline := some { team1_odds := none, team2_odds := some 130 } } = none) ∧
    (perRecordLoop (analyze_single_game_body classAttrs)
        ([{ team1 := some "A" }] ++ ({ team2 := some "B" } : Game) :: [{ sport := some "NFL" }]) =
      perRecordLoop (analyze_single_game_body classAttrs)
        ([{ team1 := some "A" }] ++ [{ sport := some "NFL" }])) :=
  ⟨claim_C8_per_record_failures_skip.1 classAttrs _ (Or.inl rfl),
   claim_C8_per_record_failures_skip.2.1 (analyze_single_game_body classAttrs)
     [{ team1 := some "A" }] [{ sport := some "NFL" }] { team2 := some "B" }
     (PyErr.attributeError "generate_game_commentary") rfl⟩

/-! ## C9: league allow-list filtering and `Unknown` placeholders -/

theorem parse_loop_singleton (pm lm tm : List (String × Attrs)) (x : RawProjection) :
    parse_projections_loop pm lm tm [x] =
      (match extract_projection_info x pm lm tm with
       | some pd => if is_target_league pd.league then [pd] else []
       | none => []) := by
  unfold parse_projections_loop
  cases hfx : extract_projection_info x pm lm tm with
  | some pd =>
    simp only [List.foldl_cons, List.foldl_nil, hfx]
    split <;> simp
  | none => simp [hfx]

theorem mem_parse_loop {pm lm tm : List (String × Attrs)} {raw : List RawProjection}
    {r : ProjectionInfo} (hr : r ∈ parse_projections_loop pm lm tm raw) :
    is_target_league r.league = true ∧
      ∃ x ∈ raw, extract_projection_info x pm lm tm = some r := by
  induction raw with
  | nil => simp [parse_projections_loop] at hr
  | cons x raw ih =>
    rw [show x :: raw = [x] ++ raw from rfl, parse_loop_append] at hr
    rcases List.mem_append.mp hr with h1 | h2
    · rw [parse_loop_singleton] at h1
      cases hfx : extract_projection_info x pm lm tm with
      | some pd =>
        simp only [hfx] at h1
        by_cases hT : is_target_league pd.league = true
        · rw [if_pos hT] at h1
          rcases List.mem_singleton.mp h1 with rfl
          exact ⟨hT, ⟨x, List.mem_cons_self _ _, hfx⟩⟩
        · rw [if_neg hT] at h1
          cases h1
      | none => simp only [hfx] at h1; cases h1
    · obtain ⟨ht, x', hx', hex⟩ := ih h2
      exact ⟨ht, x', List.mem_cons_of_mem _ hx', hex⟩

theorem dictGetD_of_dictGet_none {β : Type} {m : List (String × β)} {k : String}
    (h : dictGet m k = none) (d : β) : dictGetD m k d = d := by
  unfold dictGet at h
  unfold dictGetD
  cases hf : m.find? (fun e => e.1 == k) with
  | none => rfl
  | some e => simp [hf] at h

theorem is_target_league_spec {name : String} (h : is_target_league name = true) :
    ∃ p ∈ target_leagues, ∃ v ∈ p.2, pyIn (pyLower v) (pyLower name) = true := by
  simpa [is_target_league, List.any_eq_true] using h

/-- **C9**: `parse_projections` keeps a record only when its resolved league
name, lowercased, contains one of the configured accepted variants (the
`target_leagues` allow-list), and `extract_projection_info` never fails: an
unresolvable player or league foreign key yields the `'Unknown'` placeholder
in the corresponding field. -/
theorem claim_C9_league_filter_and_placeholders :
    (∀ (d : Option PPData) (r : ProjectionInfo), r ∈ parse_projections d →
        is_target_league r.league = true ∧
        ∃ p ∈ target_leagues, ∃ v ∈ p.2, pyIn (pyLower v) (pyLower r.league) = true) ∧
    (∀ (proj : RawProjection) (pm lm tm : List (String × Attrs)) (r : ProjectionInfo),
        extract_projection_info proj pm lm tm = some r →
        (dictGet pm (proj.new_player_id.getD "") = none → r.player_name = "Unknown") ∧
        (dictGet lm (proj.league_id.getD "") = none → r.league = "Unknown")) ∧
    (∀ (proj : RawProjection) (pm lm tm : List (String × Attrs)),
        extract_projection_info proj pm lm tm ≠ none) := by
  refine ⟨?_, ?_, ?_⟩
  · intro d r hr
    cases d with
    | none => simp [parse_projections] at hr
    | some dd =>
      simp only [parse_projections] at hr
      rcases hb : buildLookupMaps dd.included with ⟨pm, lm, tm⟩
      rw [hb] at hr
      obtain ⟨ht, -⟩ := mem_parse_loop hr
      exact ⟨ht, is_target_league_spec ht⟩
  · intro proj pm lm tm r h
    simp only [extract_projection_info, Option.some.injEq] at h
    subst h
    constructor
    · intro hnone
      show (dictGetD pm (proj.new_player_id.getD "") {}).display_name.getD "Unknown" = "Unknown"
      rw [dictGetD_of_dictGet_none hnone]
      rfl
    · intro hnone
      show (dictGetD lm (proj.league_id.getD "") {}).name.getD "Unknown" = "Unknown"
      rw [dictGetD_of_dictGet_none hnone]
      rfl
  · intro proj pm lm tm
    simp [extract_projection_info]

/-- Witness for `claim_C9_league_filter_and_placeholders`: a one-projection
payload whose league id resolves to `"NFL"` and whose player id is
unresolvable is kept by the filter and carries the `"Unknown"` player name. -/
theorem claim_C9_league_filter_and_placeholders_witness :
    (is_target_league ({ player_name := "Unknown", league := "NFL" } : ProjectionInfo).league =
        true ∧
      ∃ p ∈ target_leagues, ∃ v ∈ p.2,
        pyIn (pyLower v)
          (pyLower ({ player_name := "Unknown", league := "NFL" } : ProjectionInfo).league) =
          true) ∧
    ({ player_name := "Unknown", league := "NFL" } : ProjectionInfo).player_name = "Unknown" ∧
    extract_projection_info { league_id := some "L1", new_player_id := some "P9" }
        [] [("L1", { name := some "NFL" })] [] ≠ none := by
  refine ⟨?_, ?_, ?_⟩
  · exact claim_C9_league_filter_and_placeholders.1
      (some { data := [{ league_id := some "L1", new_player_id := some "P9" }],
              included := [{ type := "league", id := "L1",
                             attributes := { name := some "NFL" } }] })
      { player_name := "Unknown", league := "NFL" }
      (by decide)
  · exact (claim_C9_league_filter_and_placeholders.2.1
      { league_id := some "L1", new_player_id := some "P9" }
      [] [("L1", { name := some "NFL" })] []
      { player_name := "Unknown", league := "NFL" } (by decide)).1 (by decide)
  · exact claim_C9_league_filter_and_placeholders.2.2
      { league_id := some "L1", new_player_id := some "P9" }
      [] [("L1", { name := some "NFL" })] []

theorem splitLines_replicate_a (n : ℕ) :
    splitLines (List.replicate n 'a') = [List.replicate n 'a'] := by
  induction n with
  | zero => rfl
  | succ n ih => rw [List.replicate_succ]; simp [splitLines, ih]

theorem dropWhile_replicate_a (n : ℕ) :
    (List.replicate n 'a').dropWhile isPySpace = List.replicate n 'a' := by
  cases n with
  | zero => rfl
  | succ n => rw [List.replicate_succ]; simp [List.dropWhile_cons, isPySpace]

theorem pyStrip_replicate_a_newline (n : ℕ) :
    pyStrip (List.replicate n 'a' ++ ['\n']) = List.replicate n 'a' := by
  unfold pyStrip
  rw [List.dropWhile_append, dropWhile_replicate_a]
  cases n with
  | zero => rfl
  | succ n =>
    rw [if_neg (by rw [List.replicate_succ]; simp)]
    rw [List.reverse_append]
    show (((['\n'] : List Char).reverse ++
        (List.replicate (n+1) 'a').reverse).dropWhile isPySpace).reverse =
      List.replicate (n+1) 'a'
    rw [List.reverse_replicate]
    show (('\n' :: List.replicate (n+1) 'a').dropWhile isPySpace).reverse =
      List.replicate (n+1) 'a'
    rw [List.dropWhile_cons]
    rw [if_pos (by decide : isPySpace '\n' = true)]
    rw [dropWhile_replicate_a, List.reverse_replicate]

/-- **C7** (code bug): on the message `"x\n" ++ 2001 × 'a'` — length 2003,
above the 2000 limit — `split_long_message` emits the over-long second line as
an untruncated 2001-character chunk.  The truncation fallback
(`line[:1997] + "..."`) only runs while `current_message` is empty, so an
over-long line that follows any earlier content is emitted exceeding the
limit, contradicting the function's purpose of producing Discord-compatible
(≤ 2000 character) chunks. -/
theorem claim_C7_overlong_chunk_escapes_limit :
    max_message_length < ('x' :: '\n' :: List.replicate 2001 'a').length ∧
    split_long_message ('x' :: '\n' :: List.replicate 2001 'a') =
      [['x'], List.replicate 2001 'a'] ∧
    ∃ chunk ∈ split_long_message ('x' :: '\n' :: List.replicate 2001 'a'),
      max_message_length < chunk.length := by
  have hlen : ('x' :: '\n' :: List.replicate 2001 'a').length = 2003 := by
    rw [List.length_cons, List.length_cons, List.length_replicate]
  have e0 : splitLines (List.replicate 2001 'a') = [List.replicate 2001 'a'] :=
    splitLines_replicate_a 2001
  have e1 : splitLines ('\n' :: List.replicate 2001 'a') =
      [] :: [List.replicate 2001 'a'] := by
    rw [show splitLines ('\n' :: List.replicate 2001 'a') =
          [] :: splitLines (List.replicate 2001 'a') from rfl, e0]
  have e2 : splitLines ('x' :: '\n' :: List.replicate 2001 'a') =
      [['x'], List.replicate 2001 'a'] := by
    rw [show splitLines ('x' :: '\n' :: List.replicate 2001 'a') =
          (match splitLines ('\n' :: List.replicate 2001 'a') with
           | [] => [['x']]
           | l :: ls => ('x' :: l) :: ls) from rfl, e1]
  have hstep1 : splitStepP ([], []) ['x'] = ([], ['x', '\n']) := by decide
  have hstep2 : splitStepP ([], ['x', '\n']) (List.replicate 2001 'a') =
      ([['x']], List.replicate 2001 'a' ++ ['\n']) := by
    show splitStep [] ['x', '\n'] (List.replicate 2001 'a') =
      ([['x']], List.replicate 2001 'a' ++ ['\n'])
    unfold splitStep
    have hc : max_message_length <
        ((['x', '\n'] : List Char) ++ List.replicate 2001 'a' ++ ['\n']).length := by
      rw [List.length_append, List.length_append, List.length_replicate]
      decide
    rw [if_pos hc, if_pos (by decide : (['x', '\n'] : List Char) ≠ [])]
    rw [show pyStrip ['x', '\n'] = ['x'] from by decide]
    rfl
  have hne : (List.replicate 2001 'a' ++ ['\n'] : List Char) ≠ [] := by
    intro hcon
    exact absurd (List.append_eq_nil.mp hcon).2 (by decide)
  have hmain : split_long_message ('x' :: '\n' :: List.replicate 2001 'a') =
      [['x'], List.replicate 2001 'a'] := by
    unfold split_long_message
    rw [hlen]
    rw [if_neg (by decide : ¬ (2003 ≤ max_message_length))]
    rw [e2]
    rw [List.foldl_cons, hstep1, List.foldl_cons, hstep2, List.foldl_nil]
    unfold splitFinish
    rw [if_pos (show (([['x']], List.replicate 2001 'a' ++ ['\n']).2 : List Char) ≠ []
          from hne)]
    show [['x']] ++ [pyStrip (List.replicate 2001 'a' ++ ['\n'])] =
      [['x'], List.replicate 2001 'a']
    rw [pyStrip_replicate_a_newline]
    rfl
  refine ⟨by rw [hlen]; decide, hmain, ?_⟩
  refine ⟨List.replicate 2001 'a', ?_, ?_⟩
  · rw [hmain]
    exact List.mem_cons_of_mem _ (List.mem_singleton.mpr rfl)
  · rw [List.length_replicate]
    decide

/-! ## C6: the ranking sorts are stable on tied records -/

/-- **C6**: the ranking sort is a stable descending sort, so on an input list
of records carrying identical confidence scores — and hence (for the
projection sort, whose key only adds a sport-priority boost to the
confidence) identical priority-adjusted sort keys — the output order equals
the input encounter order; being a pure function of the input list, the
ordering is deterministic. -/
theorem claim_C6_tied_records_keep_input_order :
    (∀ l : List GameAnalysis,
        (∀ a ∈ l, ∀ b ∈ l, a.confidence_score = b.confidence_score) →
        sortDesc game_sort_le l = l) ∧
    (∀ l : List PropAnalysis,
        (∀ a ∈ l, ∀ b ∈ l, a.confidence_score = b.confidence_score ∧
            proj_sort_key a = proj_sort_key b) →
        sortDesc proj_sort_le l = l) := by
  constructor
  · intro l h
    refine sortDesc_eq_self ?_
    intro x hx y hy
    unfold game_sort_le
    rw [h y hy x hx]
    exact decide_eq_true (le_refl _)
  · intro l h
    refine sortDesc_eq_self ?_
    intro x hx y hy
    unfold proj_sort_le
    rw [(h y hy x hx).2]
    unfold keyPairLE
    simp

/-- Witness for `claim_C6_tied_records_keep_input_order`: two distinct game
records with equal scores, and two distinct same-sport prop records with
equal scores, come back in encounter order. -/
theorem claim_C6_tied_records_keep_input_order_witness :
    sortDesc game_sort_le
        [{ id := "g1", confidence_score := 5 }, { id := "g2", confidence_score := 5 }] =
      [{ id := "g1", confidence_score := 5 }, { id := "g2", confidence_score := 5 }] ∧
    sortDesc proj_sort_le
        [{ player_name := "A", sport := "NBA", confidence_score := 5 },
         { player_name := "B", sport := "NBA", confidence_score := 5 }] =
      [{ player_name := "A", sport := "NBA", confidence_score := 5 },
       { player_name := "B", sport := "NBA", confidence_score := 5 }] :=
  ⟨claim_C6_tied_records_keep_input_order.1 _ (by decide),
   claim_C6_tied_records_keep_input_order.2 _ (by decide)⟩

/-! ## Association-list lemmas for the bucket pipelines -/

theorem keys_updateAssoc {β : Type} (m : List (String × β)) (k : String) (f : β → β) :
    (updateAssoc m k f).map Prod.fst = m.map Prod.fst := by
  induction m with
  | nil => rfl
  | cons e es ih =>
    unfold updateAssoc
    split
    · rfl
    · simp only [List.map_cons, ih]

theorem mem_updateAssoc {β : Type} {m : List (String × β)} {k : String} {f : β → β}
    {e : String × β} (h : e ∈ updateAssoc m k f) :
    e ∈ m ∨ ∃ b, (k, b) ∈ m ∧ e = (k, f b) := by
  induction m with
  | nil => cases h
  | cons e0 es ih =>
    unfold updateAssoc at h
    split at h
    · rename_i hbeq
      have hk : e0.1 = k := eq_of_beq hbeq
      rcases List.mem_cons.mp h with rfl | hmem
      · refine Or.inr ⟨e0.2, ?_, by rw [hk]⟩
        rw [← hk, Prod.mk.eta]
        exact List.mem_cons_self _ _
      · exact Or.inl (List.mem_cons_of_mem _ hmem)
    · rcases List.mem_cons.mp h with rfl | hmem
      · exact Or.inl (List.mem_cons_self _ _)
      · rcases ih hmem with h1 | ⟨b, hb, he⟩
        · exact Or.inl (List.mem_cons_of_mem _ h1)
        · exact Or.inr ⟨b, List.mem_cons_of_mem _ hb, he⟩

theorem hasKey_false {β : Type} {m : List (String × β)} {k : String}
    (h : hasKey m k = false) : ∀ e ∈ m, e.1 ≠ k := by
  intro e he heq
  have htrue : hasKey m k = true := by
    unfold hasKey
    exact List.any_eq_true.mpr ⟨e, he, by rw [heq]; exact beq_self_eq_true k⟩
  rw [h] at htrue
  cases htrue

theorem keys_ensureKey_nodup {β : Type} {m : List (String × List β)} {k : String}
    (h : (m.map Prod.fst).Nodup) : ((ensureKey m k).map Prod.fst).Nodup := by
  unfold ensureKey
  split
  · exact h
  · rename_i hk
    rw [List.map_append]
    refine List.Nodup.append h (by simp) ?_
    intro a ha hb
    simp only [List.map_cons, List.map_nil, List.mem_singleton] at hb
    subst hb
    rcases List.mem_map.mp ha with ⟨e, he, hke⟩
    exact hasKey_false (Bool.not_eq_true _ ▸ hk) e he hke

theorem mem_ensureKey {β : Type} {m : List (String × List β)} {k : String}
    {e : String × List β} (h : e ∈ ensureKey m k) : e ∈ m ∨ e = (k, []) := by
  unfold ensureKey at h
  split at h
  · exact Or.inl h
  · rcases List.mem_append.mp h with h1 | h1
    · exact Or.inl h1
    · exact Or.inr (List.mem_singleton.mp h1)

theorem flatten_countP_ensureKey {β : Type} (P : β → Bool)
    (m : List (String × List β)) (k : String) :
    (((ensureKey m k).map Prod.snd).flatten).countP P =
      ((m.map Prod.snd).flatten).countP P := by
  unfold ensureKey
  split
  · rfl
  · simp

theorem dictGetD_cases {β : Type} (m : List (String × β)) (k : String) (d : β) :
    dictGetD m k d = d ∨ (k, dictGetD m k d) ∈ m := by
  unfold dictGetD
  cases hf : m.find? (fun e => e.1 == k) with
  | none => exact Or.inl rfl
  | some e =>
    right
    have hmem := List.mem_of_find?_eq_some hf
    have hpred := List.find?_some hf
    have hk : e.1 = k := eq_of_beq hpred
    show (k, e.2) ∈ m
    rw [← hk, Prod.mk.eta]
    exact hmem

theorem dictGetD_eq_of_mem_nodup {β : Type} {m : List (String × β)} {k : String} {b : β}
    (hnd : (m.map Prod.fst).Nodup) (hmem : (k, b) ∈ m) (d : β) : dictGetD m k d = b := by
  induction m with
  | nil => cases hmem
  | cons e es ih =>
    rw [List.map_cons, List.nodup_cons] at hnd
    unfold dictGetD
    cases hbeq : (e.1 == k) with
    | true =>
      have hk : e.1 = k := eq_of_beq hbeq
      have hpred : (fun x : String × β => x.1 == k) e = true := hbeq
      rw [List.find?_cons_of_pos es hpred]
      show e.2 = b
      rcases List.mem_cons.mp hmem with he | hes
      · rw [← he]
      · exact absurd (List.mem_map.mpr ⟨(k, b), hes, by rw [hk]⟩) hnd.1
    | false =>
      have hpred : ¬ (fun x : String × β => x.1 == k) e = true := by
        rw [show (fun x : String × β => x.1 == k) e = (e.1 == k) from rfl, hbeq]
        decide
      rw [List.find?_cons_of_neg es hpred]
      rcases List.mem_cons.mp hmem with he | hes
      · have hk : e.1 = k := by rw [← he]
        rw [hk] at hbeq
        rw [beq_self_eq_true] at hbeq
        cases hbeq
      · exact ih hnd.2 hes

/-! ## Counting lemmas over bucket lists -/

theorem countP_bucket_other {A : Type} (keyOf : A → String) {l : List A} {t s : String}
    (h : ∀ p ∈ l, keyOf p = t) (hne : t ≠ s) :
    l.countP (fun p => keyOf p == s) = 0 := by
  rw [List.countP_eq_zero]
  intro a ha
  simp [h a ha, hne]

theorem countP_flatten_buckets_zero {A : Type} (keyOf : A → String)
    {m : List (String × List A)} {s : String}
    (hkey : ∀ e ∈ m, ∀ p ∈ e.2, keyOf p = e.1) (hne : ∀ e ∈ m, e.1 ≠ s) :
    ((m.map Prod.snd).flatten).countP (fun p => keyOf p == s) = 0 := by
  rw [List.countP_eq_zero]
  intro a ha
  rcases List.mem_flatten.mp ha with ⟨l, hl, hal⟩
  rcases List.mem_map.mp hl with ⟨e, he, rfl⟩
  simp [hkey e he a hal, hne e he]

theorem countP_flatten_buckets_le {A : Type} (keyOf : A → String)
    {m : List (String × List A)} {s : String} {cap : ℕ}
    (hnd : (m.map Prod.fst).Nodup)
    (hkey : ∀ e ∈ m, ∀ p ∈ e.2, keyOf p = e.1)
    (hcap : ∀ e ∈ m, e.1 = s → e.2.length ≤ cap) :
    ((m.map Prod.snd).flatten).countP (fun p => keyOf p == s) ≤ cap := by
  induction m with
  | nil => simp
  | cons e es ih =>
    rw [List.map_cons, List.nodup_cons] at hnd
    rw [List.map_cons, List.flatten_cons, List.countP_append]
    by_cases hk : e.1 = s
    · have h2 : ((es.map Prod.snd).flatten).countP (fun p => keyOf p == s) = 0 := by
        refine countP_flatten_buckets_zero keyOf
          (fun e' he' => hkey e' (List.mem_cons_of_mem _ he')) ?_
        intro e' he' hs
        exact hnd.1 (List.mem_map.mpr ⟨e', he', hs.trans hk.symm⟩)
      have h1 : (e.2).countP (fun p => keyOf p == s) ≤ e.2.length :=
        List.countP_le_length _
      have h3 := hcap e (List.mem_cons_self _ _) hk
      omega
    · have h1 : (e.2).countP (fun p => keyOf p == s) = 0 :=
        countP_bucket_other keyOf (hkey e (List.mem_cons_self _ _)) hk
      have h2 := ih hnd.2 (fun e' he' => hkey e' (List.mem_cons_of_mem _ he'))
        (fun e' he' hs => hcap e' (List.mem_cons_of_mem _ he') hs)
      omega

theorem countP_getD {A : Type} (keyOf : A → String) (m : List (String × List A))
    (t s : String) (hkey : ∀ e ∈ m, ∀ p ∈ e.2, keyOf p = e.1) :
    (dictGetD m t []).countP (fun p => keyOf p == s) = 0 ∨
      ((t, dictGetD m t []) ∈ m ∧ ∀ p ∈ dictGetD m t [], keyOf p = t) := by
  rcases dictGetD_cases m t ([] : List A) with h | h
  · left; rw [h]; rfl
  · right; exact ⟨h, fun p hp => hkey _ h p hp⟩

theorem mem_flattenSportProps {m : List (String × List PropAnalysis)} {p : PropAnalysis}
    (h : p ∈ flattenSportProps m) : ∃ e ∈ m, p ∈ e.2 := by
  unfold flattenSportProps at h
  rcases List.mem_append.mp h with h1 | h1
  · rcases List.mem_append.mp h1 with h2 | h2
    · rcases dictGetD_cases m "NFL" ([] : List PropAnalysis) with hc | hc
      · rw [hc] at h2; cases h2
      · exact ⟨_, hc, h2⟩
    · rcases dictGetD_cases m "CFB" ([] : List PropAnalysis) with hc | hc
      · rw [hc] at h2; cases h2
      · exact ⟨_, hc, h2⟩
  · rcases List.mem_flatten.mp h1 with ⟨l, hl, hpl⟩
    rcases List.mem_map.mp hl with ⟨e, he, rfl⟩
    exact ⟨e, (List.mem_filter.mp he).1, hpl⟩

theorem flattenSportProps_countP_sport {m : List (String × List PropAnalysis)} {s : String}
    {cap : ℕ}
    (hnd : (m.map Prod.fst).Nodup)
    (hkey : ∀ e ∈ m, ∀ p ∈ e.2, p.sport = e.1)
    (hcap : ∀ e ∈ m, e.1 = s → e.2.length ≤ cap) :
    (flattenSportProps m).countP (fun p => p.sport == s) ≤ cap := by
  unfold flattenSportProps
  rw [List.countP_append, List.countP_append]
  have hW : ∀ t : String,
      (dictGetD m t []).countP (fun p => p.sport == s) = 0 ∨
        ((t, dictGetD m t []) ∈ m ∧ ∀ p ∈ dictGetD m t [], p.sport = t) :=
    fun t => countP_getD PropAnalysis.sport m t s hkey
  have hnd' : (((m.filter (fun e => ! (e.1 == "NFL" || e.1 == "CFB"))).map Prod.fst)).Nodup :=
    List.Nodup.sublist (List.Sublist.map Prod.fst (List.filter_sublist m)) hnd
  have hkey' : ∀ e ∈ m.filter (fun e => ! (e.1 == "NFL" || e.1 == "CFB")),
      ∀ p ∈ e.2, p.sport = e.1 :=
    fun e he => hkey e (List.mem_filter.mp he).1
  have hcap' : ∀ e ∈ m.filter (fun e => ! (e.1 == "NFL" || e.1 == "CFB")),
      e.1 = s → e.2.length ≤ cap :=
    fun e he => hcap e (List.mem_filter.mp he).1
  have hfilter_ne : ∀ e ∈ m.filter (fun e => ! (e.1 == "NFL" || e.1 == "CFB")),
      e.1 ≠ "NFL" ∧ e.1 ≠ "CFB" := by
    intro e he
    have h2 := (List.mem_filter.mp he).2
    constructor <;> intro hh <;> rw [hh] at h2 <;> simp at h2
  by_cases hs1 : s = "NFL"
  · subst hs1
    have hc1 : (dictGetD m "NFL" []).countP (fun p => p.sport == "NFL") ≤ cap := by
      rcases hW "NFL" with h | ⟨hm, hall⟩
      · rw [h]; exact Nat.zero_le _
      · exact le_trans (List.countP_le_length _) (hcap _ hm rfl)
    have hc2 : (dictGetD m "CFB" []).countP (fun p => p.sport == "NFL") = 0 := by
      rcases hW "CFB" with h | ⟨hm, hall⟩
      · exact h
      · exact countP_bucket_other _ hall (by decide)
    have hc3 : (((m.filter (fun e => ! (e.1 == "NFL" || e.1 == "CFB"))).map
        Prod.snd).flatten).countP (fun p => p.sport == "NFL") = 0 :=
      countP_flatten_buckets_zero _ hkey' (fun e he => (hfilter_ne e he).1)
    omega
  · by_cases hs2 : s = "CFB"
    · subst hs2
      have hc1 : (dictGetD m "NFL" []).countP (fun p => p.sport == "CFB") = 0 := by
        rcases hW "NFL" with h | ⟨hm, hall⟩
        · exact h
        · exact countP_bucket_other _ hall (by decide)
      have hc2 : (dictGetD m "CFB" []).countP (fun p => p.sport == "CFB") ≤ cap := by
        rcases hW "CFB" with h | ⟨hm, hall⟩
        · rw [h]; exact Nat.zero_le _
        · exact le_trans (List.countP_le_length _) (hcap _ hm rfl)
      have hc3 : (((m.filter (fun e => ! (e.1 == "NFL" || e.1 == "CFB"))).map
          Prod.snd).flatten).countP (fun p => p.sport == "CFB") = 0 :=
        countP_flatten_buckets_zero _ hkey' (fun e he => (hfilter_ne e he).2)
      omega
    · have hc1 : (dictGetD m "NFL" []).countP (fun p => p.sport == s) = 0 := by
        rcases hW "NFL" with h | ⟨hm, hall⟩
        · exact h
        · exact countP_bucket_other _ hall (fun hh => hs1 hh.symm)
      have hc2 : (dictGetD m "CFB" []).countP (fun p => p.sport == s) = 0 := by
        rcases hW "CFB" with h | ⟨hm, hall⟩
        · exact h
        · exact countP_bucket_other _ hall (fun hh => hs2 hh.symm)
      have hc3 := countP_flatten_buckets_le PropAnalysis.sport hnd' hkey' hcap'
      omega

/-! ## Invariants of the bucket folds -/

theorem bucket_append_inv {d : List PropAnalysis} {ens : List (String × List PropAnalysis)}
    {p : PropAnalysis} (hp : p ∈ d)
    (hnd : (ens.map Prod.fst).Nodup)
    (hinv : ∀ e ∈ ens, ∀ q ∈ e.2, q.sport = e.1 ∧ q ∈ d) :
    ((updateAssoc ens p.sport (fun l => l ++ [p])).map Prod.fst).Nodup ∧
    (∀ e ∈ updateAssoc ens p.sport (fun l => l ++ [p]), ∀ q ∈ e.2, q.sport = e.1 ∧ q ∈ d) := by
  constructor
  · rw [keys_updateAssoc]; exact hnd
  · intro e he q hq
    rcases mem_updateAssoc he with h1 | ⟨b, hb, rfl⟩
    · exact hinv e h1 q hq
    · rcases List.mem_append.mp hq with hq1 | hq1
      · simpa using hinv _ hb q hq1
      · rcases List.mem_singleton.mp hq1 with rfl
        exact ⟨rfl, hp⟩

theorem bucket_append_length {ens : List (String × List PropAnalysis)} {p : PropAnalysis}
    {e : String × List PropAnalysis} (hnd : (ens.map Prod.fst).Nodup)
    (he : e ∈ updateAssoc ens p.sport (fun l => l ++ [p])) :
    e ∈ ens ∨ (e.1 = p.sport ∧ e.2.length = (dictGetD ens p.sport []).length + 1) := by
  rcases mem_updateAssoc he with h1 | ⟨b, hb, rfl⟩
  · exact Or.inl h1
  · right
    refine ⟨rfl, ?_⟩
    rw [dictGetD_eq_of_mem_nodup hnd hb]
    simp

theorem sportAllocStep_inv {d : List PropAnalysis}
    {st : List (String × List PropAnalysis) × ℕ × ℕ} {p : PropAnalysis} (hp : p ∈ d)
    (hnd : (st.1.map Prod.fst).Nodup)
    (hinv : ∀ e ∈ st.1, ∀ q ∈ e.2, q.sport = e.1 ∧ q ∈ d)
    (h40 : ∀ e ∈ st.1, (e.1 = "NFL" ∨ e.1 = "CFB") → e.2.length ≤ 40)
    (h15 : ∀ e ∈ st.1, ¬ (e.1 = "NFL" ∨ e.1 = "CFB") → e.2.length ≤ 15) :
    ((sportAllocStep st p).1.map Prod.fst).Nodup ∧
    (∀ e ∈ (sportAllocStep st p).1, ∀ q ∈ e.2, q.sport = e.1 ∧ q ∈ d) ∧
    (∀ e ∈ (sportAllocStep st p).1, (e.1 = "NFL" ∨ e.1 = "CFB") → e.2.length ≤ 40) ∧
    (∀ e ∈ (sportAllocStep st p).1, ¬ (e.1 = "NFL" ∨ e.1 = "CFB") → e.2.length ≤ 15) := by
  obtain ⟨sp, fb, ob⟩ := st
  dsimp only at hnd hinv h40 h15
  have hens_nd : ((ensureKey sp p.sport).map Prod.fst).Nodup := keys_ensureKey_nodup hnd
  have hens_inv : ∀ e ∈ ensureKey sp p.sport, ∀ q ∈ e.2, q.sport = e.1 ∧ q ∈ d := by
    intro e he
    rcases mem_ensureKey he with h1 | rfl
    · exact hinv e h1
    · intro q hq; cases hq
  have hens_40 : ∀ e ∈ ensureKey sp p.sport,
      (e.1 = "NFL" ∨ e.1 = "CFB") → e.2.length ≤ 40 := by
    intro e he
    rcases mem_ensureKey he with h1 | rfl
    · exact h40 e h1
    · intro _; exact Nat.zero_le _
  have hens_15 : ∀ e ∈ ensureKey sp p.sport,
      ¬ (e.1 = "NFL" ∨ e.1 = "CFB") → e.2.length ≤ 15 := by
    intro e he
    rcases mem_ensureKey he with h1 | rfl
    · exact h15 e h1
    · intro _; exact Nat.zero_le _
  have hupd := bucket_append_inv hp hens_nd hens_inv
  unfold sportAllocStep
  dsimp only
  split
  · rename_i hfoot
    split
    · rename_i hlen
      refine ⟨hupd.1, hupd.2, ?_, ?_⟩
      · intro e he _
        rcases bucket_append_length hens_nd he with h1 | ⟨hk, hl⟩
        · exact hens_40 e h1 (by assumption)
        · omega
      · intro e he hnf
        rcases bucket_append_length hens_nd he with h1 | ⟨hk, hl⟩
        · exact hens_15 e h1 hnf
        · exact absurd (hk ▸ hfoot) hnf
    · exact ⟨hens_nd, hens_inv, hens_40, hens_15⟩
  · rename_i hfoot
    have hcore : (dictGetD (ensureKey sp p.sport) p.sport []).length < 15 →
        ((updateAssoc (ensureKey sp p.sport) p.sport (fun l => l ++ [p])).map
          Prod.fst).Nodup ∧
        (∀ e ∈ updateAssoc (ensureKey sp p.sport) p.sport (fun l => l ++ [p]),
          ∀ q ∈ e.2, q.sport = e.1 ∧ q ∈ d) ∧
        (∀ e ∈ updateAssoc (ensureKey sp p.sport) p.sport (fun l => l ++ [p]),
          (e.1 = "NFL" ∨ e.1 = "CFB") → e.2.length ≤ 40) ∧
        (∀ e ∈ updateAssoc (ensureKey sp p.sport) p.sport (fun l => l ++ [p]),
          ¬ (e.1 = "NFL" ∨ e.1 = "CFB") → e.2.length ≤ 15) := by
      intro hl15
      refine ⟨hupd.1, hupd.2, ?_, ?_⟩
      · intro e he hf
        rcases bucket_append_length hens_nd he with h1 | ⟨hk, hl⟩
        · exact hens_40 e h1 hf
        · exact absurd (hk ▸ hf) hfoot
      · intro e he hnf
        rcases bucket_append_length hens_nd he with h1 | ⟨hk, hl⟩
        · exact hens_15 e h1 hnf
        · omega
    rcases Nat.lt_or_ge fb 50 with hfb | hfb
    · rw [if_pos hfb]
      split
      · rename_i hlen
        exact hcore (by omega)
      · exact ⟨hens_nd, hens_inv, hens_40, hens_15⟩
    · rw [if_neg (show ¬ fb < 50 by omega)]
      split
      · rename_i hlen
        exact hcore (by omega)
      · exact ⟨hens_nd, hens_inv, hens_40, hens_15⟩

theorem sportAlloc_inv (d : List PropAnalysis) :
    (((sportAlloc d).1.map Prod.fst)).Nodup ∧
    (∀ e ∈ (sportAlloc d).1, ∀ q ∈ e.2, q.sport = e.1 ∧ q ∈ d) ∧
    (∀ e ∈ (sportAlloc d).1, (e.1 = "NFL" ∨ e.1 = "CFB") → e.2.length ≤ 40) ∧
    (∀ e ∈ (sportAlloc d).1, ¬ (e.1 = "NFL" ∨ e.1 = "CFB") → e.2.length ≤ 15) := by
  unfold sportAlloc
  suffices h : ∀ (props : List PropAnalysis) (st : List (String × List PropAnalysis) × ℕ × ℕ),
      (∀ q ∈ props, q ∈ d) →
      (st.1.map Prod.fst).Nodup →
      (∀ e ∈ st.1, ∀ q ∈ e.2, q.sport = e.1 ∧ q ∈ d) →
      (∀ e ∈ st.1, (e.1 = "NFL" ∨ e.1 = "CFB") → e.2.length ≤ 40) →
      (∀ e ∈ st.1, ¬ (e.1 = "NFL" ∨ e.1 = "CFB") → e.2.length ≤ 15) →
      (((props.foldl sportAllocStep st).1.map Prod.fst)).Nodup ∧
      (∀ e ∈ (props.foldl sportAllocStep st).1, ∀ q ∈ e.2, q.sport = e.1 ∧ q ∈ d) ∧
      (∀ e ∈ (props.foldl sportAllocStep st).1,
        (e.1 = "NFL" ∨ e.1 = "CFB") → e.2.length ≤ 40) ∧
      (∀ e ∈ (props.foldl sportAllocStep st).1,
        ¬ (e.1 = "NFL" ∨ e.1 = "CFB") → e.2.length ≤ 15) by
    exact h d ([], 0, 0) (fun q hq => hq) (by simp) (by simp) (by simp) (by simp)
  intro props
  induction props with
  | nil => intro st hq hnd hinv h40 h15; exact ⟨hnd, hinv, h40, h15⟩
  | cons p ps ih =>
    intro st hq hnd hinv h40 h15
    rw [List.foldl_cons]
    have hstep := sportAllocStep_inv (hq p (List.mem_cons_self _ _)) hnd hinv h40 h15
    exact ih (sportAllocStep st p) (fun q hq' => hq q (List.mem_cons_of_mem _ hq'))
      hstep.1 hstep.2.1 hstep.2.2.1 hstep.2.2.2

theorem countP_flatten_updateAssoc_append {A : Type} (P : A → Bool)
    (m : List (String × List A)) (k : String) (p : A) :
    (((updateAssoc m k (fun l => l ++ [p])).map Prod.snd).flatten).countP P ≤
      ((m.map Prod.snd).flatten).countP P + (if P p then 1 else 0) := by
  induction m with
  | nil => exact Nat.le_add_right _ _
  | cons e es ih =>
    unfold updateAssoc
    split
    · simp only [List.map_cons, List.flatten_cons, List.countP_append, List.countP_singleton]
      split_ifs <;> omega
    · simp only [List.map_cons, List.flatten_cons, List.countP_append]
      split_ifs at ih ⊢ <;> omega

theorem sportAllocStep_countP (P : PropAnalysis → Bool)
    (st : List (String × List PropAnalysis) × ℕ × ℕ) (p : PropAnalysis) :
    (((sportAllocStep st p).1.map Prod.snd).flatten).countP P ≤
      ((st.1.map Prod.snd).flatten).countP P + (if P p then 1 else 0) := by
  obtain ⟨sp, fb, ob⟩ := st
  unfold sportAllocStep
  dsimp only
  have hens := flatten_countP_ensureKey P sp p.sport
  have hupd := countP_flatten_updateAssoc_append P (ensureKey sp p.sport) p.sport p
  split
  · split
    · exact hupd.trans (le_of_eq (by rw [hens]))
    · exact le_trans (le_of_eq hens) (Nat.le_add_right _ _)
  · split
    · split
      · exact hupd.trans (le_of_eq (by rw [hens]))
      · exact le_trans (le_of_eq hens) (Nat.le_add_right _ _)
    · split
      · exact hupd.trans (le_of_eq (by rw [hens]))
      · exact le_trans (le_of_eq hens) (Nat.le_add_right _ _)

theorem sportAlloc_countP (P : PropAnalysis → Bool) (d : List PropAnalysis) :
    (((sportAlloc d).1.map Prod.snd).flatten).countP P ≤ d.countP P := by
  unfold sportAlloc
  suffices h : ∀ (props : List PropAnalysis)
      (st : List (String × List PropAnalysis) × ℕ × ℕ),
      (((props.foldl sportAllocStep st).1.map Prod.snd).flatten).countP P ≤
        ((st.1.map Prod.snd).flatten).countP P + props.countP P by
    simpa using h d ([], 0, 0)
  intro props
  induction props with
  | nil => intro st; simp
  | cons p ps ih =>
    intro st
    rw [List.foldl_cons, List.countP_cons]
    have h1 := ih (sportAllocStep st p)
    have h2 := sportAllocStep_countP P st p
    split_ifs at h2 ⊢ <;> omega

theorem gamesBucketsStep_inv {d : List GameAnalysis}
    {sp : List (String × List GameAnalysis)} {a : GameAnalysis} (ha : a ∈ d)
    (hnd : (sp.map Prod.fst).Nodup)
    (hinv : ∀ e ∈ sp, ∀ g ∈ e.2, g.sport = e.1 ∧ g ∈ d)
    (hcap : ∀ e ∈ sp, e.2.length ≤ max_picks_per_sport) :
    ((gamesBucketsStep sp a).map Prod.fst).Nodup ∧
    (∀ e ∈ gamesBucketsStep sp a, ∀ g ∈ e.2, g.sport = e.1 ∧ g ∈ d) ∧
    (∀ e ∈ gamesBucketsStep sp a, e.2.length ≤ max_picks_per_sport) := by
  refine ⟨?_, ?_, ?_⟩
  · unfold gamesBucketsStep
    rw [keys_updateAssoc]
    exact keys_ensureKey_nodup hnd
  · unfold gamesBucketsStep
    intro e he g hg
    rcases mem_updateAssoc he with h1 | ⟨b, hb, rfl⟩
    · rcases mem_ensureKey h1 with h2 | rfl
      · exact hinv e h2 g hg
      · cases hg
    · have hbmem : ∀ g' ∈ b, g'.sport = a.sport ∧ g' ∈ d := by
        rcases mem_ensureKey hb with h2 | h2
        · intro g' hg'; simpa using hinv _ h2 g' hg'
        · intro g' hg'
          have hb0 : b = [] := congrArg Prod.snd h2
          rw [hb0] at hg'
          cases hg'
      dsimp only at hg
      split at hg
      · rcases List.mem_append.mp hg with h3 | h3
        · exact hbmem g h3
        · rcases List.mem_singleton.mp h3 with rfl
          exact ⟨rfl, ha⟩
      · exact hbmem g hg
  · unfold gamesBucketsStep
    intro e he
    rcases mem_updateAssoc he with h1 | ⟨b, hb, rfl⟩
    · rcases mem_ensureKey h1 with h2 | rfl
      · exact hcap e h2
      · exact Nat.zero_le _
    · have hble : b.length ≤ max_picks_per_sport := by
        rcases mem_ensureKey hb with h2 | h2
        · exact hcap _ h2
        · have hb0 : b = [] := congrArg Prod.snd h2
          rw [hb0]
          exact Nat.zero_le _
      dsimp only
      split
      · rename_i hlt
        rw [List.length_append]
        simp only [List.length_singleton]
        omega
      · exact hble

theorem gamesBuckets_inv (l : List GameAnalysis) :
    ((gamesBuckets l).map Prod.fst).Nodup ∧
    (∀ e ∈ gamesBuckets l, ∀ g ∈ e.2, g.sport = e.1 ∧ g ∈ l) ∧
    (∀ e ∈ gamesBuckets l, e.2.length ≤ max_picks_per_sport) := by
  unfold gamesBuckets
  suffices h : ∀ (props : List GameAnalysis) (sp : List (String × List GameAnalysis)),
      (∀ g ∈ props, g ∈ l) →
      (sp.map Prod.fst).Nodup →
      (∀ e ∈ sp, ∀ g ∈ e.2, g.sport = e.1 ∧ g ∈ l) →
      (∀ e ∈ sp, e.2.length ≤ max_picks_per_sport) →
      ((props.foldl gamesBucketsStep sp).map Prod.fst).Nodup ∧
      (∀ e ∈ props.foldl gamesBucketsStep sp, ∀ g ∈ e.2, g.sport = e.1 ∧ g ∈ l) ∧
      (∀ e ∈ props.foldl gamesBucketsStep sp, e.2.length ≤ max_picks_per_sport) by
    exact h l [] (fun g hg => hg) (by simp) (by simp) (by simp)
  intro props
  induction props with
  | nil => intro sp _ hnd hinv hcap; exact ⟨hnd, hinv, hcap⟩
  | cons a ps ih =>
    intro sp hq hnd hinv hcap
    rw [List.foldl_cons]
    have hstep := gamesBucketsStep_inv (hq a (List.mem_cons_self _ _)) hnd hinv hcap
    exact ih (gamesBucketsStep sp a) (fun g hg => hq g (List.mem_cons_of_mem _ hg))
      hstep.1 hstep.2.1 hstep.2.2

/-! ## Player grouping and per-player selection lemmas -/

theorem groupStep_inv {acc : List (String × List PropAnalysis)} {p : PropAnalysis}
    {l0 : List PropAnalysis}
    (hnd : (acc.map Prod.fst).Nodup)
    (hinv : ∀ e ∈ acc, ∀ q ∈ e.2, playerSportKey q = e.1 ∧ q ∈ l0) (hp : p ∈ l0) :
    ((groupStep acc p).map Prod.fst).Nodup ∧
    (∀ e ∈ groupStep acc p, ∀ q ∈ e.2, playerSportKey q = e.1 ∧ q ∈ l0) := by
  unfold groupStep
  dsimp only
  split
  · constructor
    · rw [keys_updateAssoc]; exact hnd
    · intro e he q hq
      rcases mem_updateAssoc he with h1 | ⟨b, hb, rfl⟩
      · exact hinv e h1 q hq
      · rcases List.mem_append.mp hq with h2 | h2
        · simpa using hinv _ hb q h2
        · rcases List.mem_singleton.mp h2 with rfl
          exact ⟨rfl, hp⟩
  · rename_i hk
    constructor
    · rw [List.map_append]
      refine List.Nodup.append hnd (by simp) ?_
      intro x hx hx2
      simp only [List.map_cons, List.map_nil, List.mem_singleton] at hx2
      subst hx2
      rcases List.mem_map.mp hx with ⟨e, he, hke⟩
      exact hasKey_false (Bool.not_eq_true _ ▸ hk) e he hke
    · intro e he q hq
      rcases List.mem_append.mp he with h1 | h1
      · exact hinv e h1 q hq
      · rcases List.mem_singleton.mp h1 with rfl
        rcases List.mem_singleton.mp hq with rfl
        exact ⟨rfl, hp⟩

theorem groupByPlayerSport_inv (l : List PropAnalysis) :
    ((groupByPlayerSport l).map Prod.fst).Nodup ∧
    (∀ e ∈ groupByPlayerSport l, ∀ q ∈ e.2, playerSportKey q = e.1 ∧ q ∈ l) := by
  unfold groupByPlayerSport
  suffices h : ∀ (props : List PropAnalysis) (acc : List (String × List PropAnalysis)),
      (∀ q ∈ props, q ∈ l) → (acc.map Prod.fst).Nodup →
      (∀ e ∈ acc, ∀ q ∈ e.2, playerSportKey q = e.1 ∧ q ∈ l) →
      ((props.foldl groupStep acc).map Prod.fst).Nodup ∧
      (∀ e ∈ props.foldl groupStep acc, ∀ q ∈ e.2, playerSportKey q = e.1 ∧ q ∈ l) by
    exact h l [] (fun q hq => hq) (by simp) (by simp)
  intro props
  induction props with
  | nil => intro acc _ hnd hinv; exact ⟨hnd, hinv⟩
  | cons p ps ih =>
    intro acc hq hnd hinv
    rw [List.foldl_cons]
    have hstep := groupStep_inv hnd hinv (hq p (List.mem_cons_self _ _))
    exact ih (groupStep acc p) (fun q hq' => hq q (List.mem_cons_of_mem _ hq'))
      hstep.1 hstep.2

theorem footballFirstLoop_length {m : ℕ} :
    ∀ (picks sel : List PropAnalysis) (seen : List String),
      sel.length < m → (footballFirstLoop m picks sel seen).length ≤ m := by
  intro picks
  induction picks with
  | nil =>
    intro sel seen h
    unfold footballFirstLoop
    omega
  | cons pick rest ih =>
    intro sel seen h
    unfold footballFirstLoop
    dsimp only
    split
    · split
      · rename_i hge
        rw [List.length_append, List.length_singleton]
        omega
      · rename_i hlt
        exact ih _ _ (by omega)
    · exact ih _ _ h

theorem footballSecondLoop_length {m : ℕ} :
    ∀ (picks sel : List PropAnalysis),
      sel.length < m → (footballSecondLoop m picks sel).length ≤ m := by
  intro picks
  induction picks with
  | nil =>
    intro sel h
    unfold footballSecondLoop
    omega
  | cons pick rest ih =>
    intro sel h
    unfold footballSecondLoop
    dsimp only
    split
    · split
      · rename_i hge
        rw [List.length_append, List.length_singleton]
        omega
      · rename_i hlt
        exact ih _ (by omega)
    · exact ih _ h

theorem footballFirstLoop_mem {m : ℕ} :
    ∀ (picks sel : List PropAnalysis) (seen : List String) (q : PropAnalysis),
      q ∈ footballFirstLoop m picks sel seen → q ∈ sel ∨ q ∈ picks := by
  intro picks
  induction picks with
  | nil =>
    intro sel seen q h
    unfold footballFirstLoop at h
    exact Or.inl h
  | cons pick rest ih =>
    intro sel seen q h
    unfold footballFirstLoop at h
    dsimp only at h
    split at h
    · split at h
      · rcases List.mem_append.mp h with h1 | h1
        · exact Or.inl h1
        · rcases List.mem_singleton.mp h1 with rfl
          exact Or.inr (List.mem_cons_self _ _)
      · rcases ih _ _ q h with h1 | h1
        · rcases List.mem_append.mp h1 with h2 | h2
          · exact Or.inl h2
          · rcases List.mem_singleton.mp h2 with rfl
            exact Or.inr (List.mem_cons_self _ _)
        · exact Or.inr (List.mem_cons_of_mem _ h1)
    · rcases ih _ _ q h with h1 | h1
      · exact Or.inl h1
      · exact Or.inr (List.mem_cons_of_mem _ h1)

theorem footballSecondLoop_mem {m : ℕ} :
    ∀ (picks sel : List PropAnalysis) (q : PropAnalysis),
      q ∈ footballSecondLoop m picks sel → q ∈ sel ∨ q ∈ picks := by
  intro picks
  induction picks with
  | nil =>
    intro sel q h
    unfold footballSecondLoop at h
    exact Or.inl h
  | cons pick rest ih =>
    intro sel q h
    unfold footballSecondLoop at h
    dsimp only at h
    split at h
    · split at h
      · rcases List.mem_append.mp h with h1 | h1
        · exact Or.inl h1
        · rcases List.mem_singleton.mp h1 with rfl
          exact Or.inr (List.mem_cons_self _ _)
      · rcases ih _ q h with h1 | h1
        · rcases List.mem_append.mp h1 with h2 | h2
          · exact Or.inl h2
          · rcases List.mem_singleton.mp h2 with rfl
            exact Or.inr (List.mem_cons_self _ _)
        · exact Or.inr (List.mem_cons_of_mem _ h1)
    · rcases ih _ q h with h1 | h1
      · exact Or.inl h1
      · exact Or.inr (List.mem_cons_of_mem _ h1)

theorem selectFootballPicks_length {m : ℕ} (hm : 0 < m) (picks : List PropAnalysis) :
    (selectFootballPicks m picks).length ≤ m := by
  unfold selectFootballPicks
  dsimp only
  split
  · rename_i hlt
    exact footballSecondLoop_length _ _ hlt
  · exact footballFirstLoop_length _ _ _ (by simpa using hm)

theorem selectFootballPicks_mem {m : ℕ} {picks : List PropAnalysis} {q : PropAnalysis}
    (h : q ∈ selectFootballPicks m picks) : q ∈ picks := by
  unfold selectFootballPicks at h
  dsimp only at h
  split at h
  · rcases footballSecondLoop_mem _ _ q h with h1 | h1
    · rcases footballFirstLoop_mem _ _ _ q h1 with h2 | h2
      · cases h2
      · exact mem_sortDesc h2
    · exact mem_sortDesc h1
  · rcases footballFirstLoop_mem _ _ _ q h with h1 | h1
    · cases h1
    · exact mem_sortDesc h1

/-! ## Counting props across the football-first flattening -/

theorem dictGetD_cons {β : Type} (e : String × β) (es : List (String × β))
    (k : String) (d : β) :
    dictGetD (e :: es) k d = if e.1 == k then e.2 else dictGetD es k d := by
  unfold dictGetD
  cases hbeq : e.1 == k
  · have hneg : ¬ ((fun x : String × β => x.1 == k) e = true) := by
      simp [hbeq]
    rw [List.find?_cons_of_neg es hneg]
    simp [dictGetD]
  · have hpos : (fun x : String × β => x.1 == k) e = true := hbeq
    rw [List.find?_cons_of_pos es hpos]
    simp

theorem countP_flatten_filter_split (P : PropAnalysis → Bool)
    (q : String × List PropAnalysis → Bool) :
    ∀ (m : List (String × List PropAnalysis)),
      ((m.map Prod.snd).flatten).countP P =
        (((m.filter q).map Prod.snd).flatten).countP P +
          (((m.filter (fun e => ! q e)).map Prod.snd).flatten).countP P := by
  intro m
  induction m with
  | nil => rfl
  | cons e es ih =>
    cases hq : q e
    · have h1 : List.filter q (e :: es) = List.filter q es := by
        rw [List.filter_cons, if_neg (by simp [hq])]
      have h2 : List.filter (fun x => ! q x) (e :: es) =
          e :: List.filter (fun x => ! q x) es := by
        rw [List.filter_cons, if_pos (by simp [hq])]
      rw [h1, h2, List.map_cons, List.flatten_cons, List.countP_append,
        List.map_cons, List.flatten_cons, List.countP_append, ih]
      omega
    · have h1 : List.filter q (e :: es) = e :: List.filter q es := by
        rw [List.filter_cons, if_pos hq]
      have h2 : List.filter (fun x => ! q x) (e :: es) =
          List.filter (fun x => ! q x) es := by
        rw [List.filter_cons, if_neg (by simp [hq])]
      rw [h1, h2, List.map_cons, List.flatten_cons, List.countP_append,
        List.map_cons, List.flatten_cons, List.countP_append, ih]
      omega

theorem getD_counts_le_football (P : PropAnalysis → Bool) :
    ∀ (m : List (String × List PropAnalysis)),
      (dictGetD m "NFL" []).countP P + (dictGetD m "CFB" []).countP P ≤
        (((m.filter (fun e => e.1 == "NFL" || e.1 == "CFB")).map Prod.snd).flatten).countP P := by
  intro m
  induction m with
  | nil => simp [dictGetD]
  | cons e es ih =>
    rw [dictGetD_cons, dictGetD_cons]
    cases hN : e.1 == "NFL"
    · cases hC : e.1 == "CFB"
      · have hf : List.filter (fun x => x.1 == "NFL" || x.1 == "CFB") (e :: es) =
            List.filter (fun x => x.1 == "NFL" || x.1 == "CFB") es := by
          rw [List.filter_cons, if_neg (by simp [hN, hC])]
        rw [if_neg (by simp), if_neg (by simp), hf]
        exact ih
      · have hf : List.filter (fun x => x.1 == "NFL" || x.1 == "CFB") (e :: es) =
            e :: List.filter (fun x => x.1 == "NFL" || x.1 == "CFB") es := by
          rw [List.filter_cons, if_pos (by simp [hC])]
        rw [if_neg (by simp), if_pos rfl, hf, List.map_cons, List.flatten_cons,
          List.countP_append]
        omega
    · have hN2 : e.1 = "NFL" := by simpa using hN
      have hC : (e.1 == "CFB") = false := by simp [hN2]
      have hf : List.filter (fun x => x.1 == "NFL" || x.1 == "CFB") (e :: es) =
          e :: List.filter (fun x => x.1 == "NFL" || x.1 == "CFB") es := by
        rw [List.filter_cons, if_pos (by simp [hN])]
      rw [if_pos rfl, if_neg (by simp [hC]), hf, List.map_cons, List.flatten_cons,
        List.countP_append]
      omega

theorem flattenSportProps_countP_le (P : PropAnalysis → Bool)
    (m : List (String × List PropAnalysis)) :
    (flattenSportProps m).countP P ≤ ((m.map Prod.snd).flatten).countP P := by
  unfold flattenSportProps
  rw [List.countP_append, List.countP_append]
  have hpart := countP_flatten_filter_split P
    (fun e => e.1 == "NFL" || e.1 == "CFB") m
  have hfoot := getD_counts_le_football P m
  omega

/-! ## Per-player counting through the diversification -/

theorem countP_flatten_image_le (gs : List (String × List PropAnalysis))
    (sel : String × List PropAnalysis → List PropAnalysis) (k : String) (cap : ℕ)
    (hnd : (gs.map Prod.fst).Nodup)
    (hkey : ∀ e ∈ gs, ∀ q ∈ e.2, playerSportKey q = e.1)
    (hmem : ∀ e ∈ gs, ∀ q ∈ sel e, q ∈ e.2)
    (hcap : ∀ e ∈ gs, e.1 = k → (sel e).length ≤ cap) :
    ((gs.map sel).flatten).countP (fun p => playerSportKey p == k) ≤ cap := by
  have heq : gs.map sel = ((gs.map (fun e => (e.1, sel e))).map Prod.snd) := by
    rw [List.map_map]
    rfl
  rw [heq]
  refine @countP_flatten_buckets_le PropAnalysis playerSportKey
    (gs.map (fun e => (e.1, sel e))) k cap ?_ ?_ ?_
  · have heq2 : ((gs.map (fun e => (e.1, sel e))).map Prod.fst) = gs.map Prod.fst := by
      rw [List.map_map]
      rfl
    rw [heq2]
    exact hnd
  · intro e he q hq
    rcases List.mem_map.mp he with ⟨e0, he0, rfl⟩
    exact hkey e0 he0 q (hmem e0 he0 q hq)
  · intro e he hk
    rcases List.mem_map.mp he with ⟨e0, he0, rfl⟩
    exact hcap e0 he0 hk

theorem countP_flatten_image_zero (gs : List (String × List PropAnalysis))
    (sel : String × List PropAnalysis → List PropAnalysis) (k : String)
    (hkey : ∀ e ∈ gs, ∀ q ∈ e.2, playerSportKey q = e.1)
    (hmem : ∀ e ∈ gs, ∀ q ∈ sel e, q ∈ e.2)
    (hne : ∀ e ∈ gs, e.1 ≠ k) :
    ((gs.map sel).flatten).countP (fun p => playerSportKey p == k) = 0 := by
  have heq : gs.map sel = ((gs.map (fun e => (e.1, sel e))).map Prod.snd) := by
    rw [List.map_map]
    rfl
  rw [heq]
  refine @countP_flatten_buckets_zero PropAnalysis playerSportKey
    (gs.map (fun e => (e.1, sel e))) k ?_ ?_
  · intro e he q hq
    rcases List.mem_map.mp he with ⟨e0, he0, rfl⟩
    exact hkey e0 he0 q (hmem e0 he0 q hq)
  · intro e he
    rcases List.mem_map.mp he with ⟨e0, he0, rfl⟩
    exact hne e0 he0

theorem diversify_countP_key (l : List PropAnalysis) (k : String) :
    (diversify_player_picks_football_first l).countP (fun p => playerSportKey p == k) ≤
      (if isFootballKey k then 6 else 2) := by
  unfold diversify_player_picks_football_first
  dsimp only
  rw [countP_sortDesc, List.countP_append]
  obtain ⟨hnd, hinv⟩ := groupByPlayerSport_inv l
  have hndF : ((((groupByPlayerSport l).filter (fun e => isFootballKey e.1)).map
      Prod.fst)).Nodup :=
    List.Nodup.sublist (List.Sublist.map Prod.fst (List.filter_sublist _)) hnd
  have hndO : ((((groupByPlayerSport l).filter (fun e => ! isFootballKey e.1)).map
      Prod.fst)).Nodup :=
    List.Nodup.sublist (List.Sublist.map Prod.fst (List.filter_sublist _)) hnd
  have hkeyF : ∀ e ∈ (groupByPlayerSport l).filter (fun e => isFootballKey e.1),
      ∀ q ∈ e.2, playerSportKey q = e.1 :=
    fun e he q hq => (hinv e (List.mem_filter.mp he).1 q hq).1
  have hkeyO : ∀ e ∈ (groupByPlayerSport l).filter (fun e => ! isFootballKey e.1),
      ∀ q ∈ e.2, playerSportKey q = e.1 :=
    fun e he q hq => (hinv e (List.mem_filter.mp he).1 q hq).1
  have hmemF : ∀ e ∈ (groupByPlayerSport l).filter (fun e => isFootballKey e.1),
      ∀ q ∈ selectFootballPicks 6 e.2, q ∈ e.2 :=
    fun e _ q hq => selectFootballPicks_mem hq
  have hmemO : ∀ e ∈ (groupByPlayerSport l).filter (fun e => ! isFootballKey e.1),
      ∀ q ∈ (sortDesc conf_sort_le e.2).take 2, q ∈ e.2 :=
    fun e _ q hq => mem_sortDesc (List.mem_of_mem_take hq)
  cases hk : isFootballKey k
  · have hneF : ∀ e ∈ (groupByPlayerSport l).filter (fun e => isFootballKey e.1),
        e.1 ≠ k := by
      intro e he hek
      have h2 : isFootballKey e.1 = true := by simpa using (List.mem_filter.mp he).2
      rw [hek, hk] at h2
      cases h2
    have hcapO : ∀ e ∈ (groupByPlayerSport l).filter (fun e => ! isFootballKey e.1),
        e.1 = k → ((sortDesc conf_sort_le e.2).take 2).length ≤ 2 := by
      intro e _ _
      rw [List.length_take]
      omega
    have h0 := countP_flatten_image_zero _ (fun e => selectFootballPicks 6 e.2) k
      hkeyF hmemF hneF
    have h2 := countP_flatten_image_le _ (fun e => (sortDesc conf_sort_le e.2).take 2) k 2
      hndO hkeyO hmemO hcapO
    rw [if_neg (by simp)]
    omega
  · have hneO : ∀ e ∈ (groupByPlayerSport l).filter (fun e => ! isFootballKey e.1),
        e.1 ≠ k := by
      intro e he hek
      have h2 : isFootballKey e.1 = false := by
        have h3 := (List.mem_filter.mp he).2
        simpa using h3
      rw [hek, hk] at h2
      cases h2
    have hcapF : ∀ e ∈ (groupByPlayerSport l).filter (fun e => isFootballKey e.1),
        e.1 = k → (selectFootballPicks 6 e.2).length ≤ 6 :=
      fun e _ _ => selectFootballPicks_length (by norm_num) _
    have h6 := countP_flatten_image_le _ (fun e => selectFootballPicks 6 e.2) k 6
      hndF hkeyF hmemF hcapF
    have h0 := countP_flatten_image_zero _ (fun e => (sortDesc conf_sort_le e.2).take 2) k
      hkeyO hmemO hneO
    rw [if_pos rfl]
    omega

theorem diversify_mem {l : List PropAnalysis} {q : PropAnalysis}
    (h : q ∈ diversify_player_picks_football_first l) : q ∈ l := by
  unfold diversify_player_picks_football_first at h
  dsimp only at h
  have h2 := mem_sortDesc h
  rcases List.mem_append.mp h2 with h3 | h3
  · rcases List.mem_flatten.mp h3 with ⟨bl, hbl, hq⟩
    rcases List.mem_map.mp hbl with ⟨e, he, rfl⟩
    exact ((groupByPlayerSport_inv l).2 e (List.mem_filter.mp he).1 q
      (selectFootballPicks_mem hq)).2
  · rcases List.mem_flatten.mp h3 with ⟨bl, hbl, hq⟩
    rcases List.mem_map.mp hbl with ⟨e, he, rfl⟩
    exact ((groupByPlayerSport_inv l).2 e (List.mem_filter.mp he).1 q
      (mem_sortDesc (List.mem_of_mem_take hq))).2

/-- **C3** counterexample. The claimed *per-player* cap ("6 per football player,
2 per non-football player") is false as stated: the caps are keyed on the combined
`f"{player}_{sport}"` string, classified as football whenever that string merely
*contains* `"NFL"` or `"CFB"`. Player `"MrNFL"`, all of whose records are in the
non-football sport `"NBA"`, yields the key `"MrNFL_NBA"`, which contains `"NFL"`,
so 3 > 2 of this non-football player's records are emitted; and player `"Smith"`
with records in both `NFL` and `CFB` forms two distinct keys and emits 7 > 6
records. (`List.all` encodes that every `"MrNFL"` record is an `NBA` record.) -/
theorem claim_C3_per_entity_caps_counterexample :
    (analyze_prizepicks_post C3cexInput).countP
        (fun p => p.player_name == "MrNFL") = 3 ∧
    (C3cexInput.all
        (fun p => !(p.player_name == "MrNFL") || (p.sport == "NBA")) = true) ∧
    ¬ (analyze_prizepicks_post C3cexInput).countP
        (fun p => p.player_name == "MrNFL") ≤ 2 ∧
    (analyze_prizepicks_post C3cexInput).countP
        (fun p => p.player_name == "Smith") = 7 ∧
    ¬ (analyze_prizepicks_post C3cexInput).countP
        (fun p => p.player_name == "Smith") ≤ 6 := by
  decide

/-- **C3** (amended). The caps the code actually enforces: at most 25 game
analyses per sport; at most 40 projections in each of the football sports `NFL`
and `CFB` and at most 15 in any other single sport; and per combined
player-sport key `f"{player}_{sport}"`, at most 6 records when the key string
contains `"NFL"` or `"CFB"` (the code's football classification) and at most 2
otherwise. -/
theorem claim_C3_caps_amended :
    (∀ (l : List GameAnalysis) (s : String),
        (analyze_bovada_post l).countP (fun g => g.sport == s) ≤ 25) ∧
    (∀ l : List PropAnalysis,
        (analyze_prizepicks_post l).countP (fun p => p.sport == "NFL") ≤ 40 ∧
        (analyze_prizepicks_post l).countP (fun p => p.sport == "CFB") ≤ 40 ∧
        (∀ s : String, s ≠ "NFL" → s ≠ "CFB" →
          (analyze_prizepicks_post l).countP (fun p => p.sport == s) ≤ 15) ∧
        (∀ k : String, isFootballKey k = true →
          (analyze_prizepicks_post l).countP (fun p => playerSportKey p == k) ≤ 6) ∧
        (∀ k : String, isFootballKey k = false →
          (analyze_prizepicks_post l).countP (fun p => playerSportKey p == k) ≤ 2)) := by
  constructor
  · intro l s
    unfold analyze_bovada_post
    obtain ⟨hnd, hinv, hcap⟩ := gamesBuckets_inv (sortDesc game_sort_le l)
    exact countP_flatten_buckets_le GameAnalysis.sport hnd
      (fun e he g hg => (hinv e he g hg).1) (fun e he _ => hcap e he)
  · intro l
    unfold analyze_prizepicks_post
    dsimp only
    obtain ⟨hnd, hkey, h40, h15⟩ :=
      sportAlloc_inv (diversify_player_picks_football_first (sortDesc proj_sort_le l))
    refine ⟨?_, ?_, ?_, ?_, ?_⟩
    · exact flattenSportProps_countP_sport hnd (fun e he q hq => (hkey e he q hq).1)
        (fun e he h1 => h40 e he (Or.inl h1))
    · exact flattenSportProps_countP_sport hnd (fun e he q hq => (hkey e he q hq).1)
        (fun e he h1 => h40 e he (Or.inr h1))
    · intro s hs1 hs2
      refine flattenSportProps_countP_sport hnd (fun e he q hq => (hkey e he q hq).1) ?_
      intro e he h1
      refine h15 e he ?_
      rw [h1]
      rintro (h | h)
      · exact hs1 h
      · exact hs2 h
    · intro k hk
      have hle1 := flattenSportProps_countP_le (fun p => playerSportKey p == k)
        (sportAlloc (diversify_player_picks_football_first (sortDesc proj_sort_le l))).1
      have hle2 := sportAlloc_countP (fun p => playerSportKey p == k)
        (diversify_player_picks_football_first (sortDesc proj_sort_le l))
      have hle3 := diversify_countP_key (sortDesc proj_sort_le l) k
      rw [hk, if_pos rfl] at hle3
      omega
    · intro k hk
      have hle1 := flattenSportProps_countP_le (fun p => playerSportKey p == k)
        (sportAlloc (diversify_player_picks_football_first (sortDesc proj_sort_le l))).1
      have hle2 := sportAlloc_countP (fun p => playerSportKey p == k)
        (diversify_player_picks_football_first (sortDesc proj_sort_le l))
      have hle3 := diversify_countP_key (sortDesc proj_sort_le l) k
      rw [hk, if_neg (by simp)] at hle3
      omega

/-- Witness for the amended C3 at concrete inputs: one-game and one-projection
lists, with the hypotheses discharged at sport `"NBA"` and at the football key
`"A_NFL"` / non-football key `"A_NBA"`. -/
theorem claim_C3_caps_amended_witness :
    (analyze_bovada_post
        [({ sport := "NFL", confidence_score := 5 } : GameAnalysis)]).countP
        (fun g => g.sport == "NFL") ≤ 25 ∧
    (analyze_prizepicks_post
        [({ player_name := "A", sport := "NBA", stat_type := "Points",
            confidence_score := 5 } : PropAnalysis)]).countP
        (fun p => p.sport == "NBA") ≤ 15 ∧
    (analyze_prizepicks_post
        [({ player_name := "A", sport := "NBA", stat_type := "Points",
            confidence_score := 5 } : PropAnalysis)]).countP
        (fun p => playerSportKey p == "A_NFL") ≤ 6 ∧
    (analyze_prizepicks_post
        [({ player_name := "A", sport := "NBA", stat_type := "Points",
            confidence_score := 5 } : PropAnalysis)]).countP
        (fun p => playerSportKey p == "A_NBA") ≤ 2 :=
  ⟨claim_C3_caps_amended.1 _ "NFL",
   (claim_C3_caps_amended.2 _).2.2.1 "NBA" (by decide) (by decide),
   (claim_C3_caps_amended.2 _).2.2.2.1 "A_NFL" (by decide),
   (claim_C3_caps_amended.2 _).2.2.2.2 "A_NBA" (by decide)⟩

/-! ## C10: records are filtered and reordered, never mutated -/

/-- **C10**: the sport-priority bonuses (`+1000`/`+900` in `sort_key`,
`+2000`/`+1900` in `final_sort_key`) exist only inside the comparator keys;
every record emitted by the ranking-and-diversification stage is equal, field
for field, to a record of the input list, so in particular its stored
`confidence_score` is exactly the one it carried on input. -/
theorem claim_C10_records_not_mutated :
    ∀ (l : List PropAnalysis) (p : PropAnalysis),
      p ∈ analyze_prizepicks_post l →
        p ∈ l ∧ ∃ q ∈ l, q = p ∧ q.confidence_score = p.confidence_score := by
  intro l p h
  unfold analyze_prizepicks_post at h
  dsimp only at h
  rcases mem_flattenSportProps h with ⟨e, he, hpe⟩
  have h2 := ((sportAlloc_inv _).2.1 e he p hpe).2
  have h3 := mem_sortDesc (diversify_mem h2)
  exact ⟨h3, p, h3, rfl, rfl⟩

/-- Witness for C10: a concrete `NBA` projection record survives the pipeline
and is returned unmodified. -/
theorem claim_C10_records_not_mutated_witness :
    pW10 ∈ analyze_prizepicks_post [pW10] ∧
    (pW10 ∈ [pW10] ∧ ∃ q ∈ [pW10], q = pW10 ∧
      q.confidence_score = pW10.confidence_score) :=
  ⟨by decide, claim_C10_records_not_mutated _ _ (by decide)⟩
